import Mathlib

/-!
# Verification of the kaldi-native-fbank feature pipeline

A shallow embedding of the streaming spectral-feature pipeline
(`src/window.rs`, `src/mel.rs`, `src/fbank.rs`, `src/mfcc.rs`,
`src/utils.rs`, `src/online.rs`) and proofs about its specification.

Conventions of the embedding:
* `f32` values are modelled as exact numbers: configuration fields as `ℚ`
  (all comparisons and the integer truncations in the source are exact
  there) and audio samples / derived signal values as `ℝ`.
* Fallible construction (`Option` / `Result` in the source) becomes
  `Option`; a `panic!` or an `.expect(...)` failure becomes `none`.
* The implicit thread-local random source used for dithering is passed in
  explicitly as a function `ℕ → ℝ` giving the per-position draw (the spec
  requires an injected random source; every claim below disables dither).
-/

namespace KnfSpec

/-- `FrameOptions` from `src/window.rs`.  Numeric `f32` fields are `ℚ`. -/
structure FrameOptions where
  samp_freq : ℚ
  frame_shift_ms : ℚ
  frame_length_ms : ℚ
  dither : ℚ
  preemph_coeff : ℚ
  remove_dc_offset : Bool
  window_type : String
  round_to_power_of_two : Bool
  blackman_coeff : ℚ
  snip_edges : Bool

/-- `FrameOptions::window_shift`: `(samp_freq * 0.001 * frame_shift_ms) as usize`.
The `as usize` cast truncates toward zero and saturates negatives to 0,
which on rationals is `Int.floor` followed by `Int.toNat` for the values
arising here. -/
def window_shift (o : FrameOptions) : ℕ :=
  (Int.floor (o.samp_freq * (1 / 1000) * o.frame_shift_ms)).toNat

/-- `FrameOptions::window_size`: `(samp_freq * 0.001 * frame_length_ms) as usize`. -/
def window_size (o : FrameOptions) : ℕ :=
  (Int.floor (o.samp_freq * (1 / 1000) * o.frame_length_ms)).toNat

/-- Rust `usize::next_power_of_two`: the least power of two that is `≥ n`
(and `1` for `n = 0`). -/
def nextPowerOfTwo (n : ℕ) : ℕ := 2 ^ Nat.clog 2 n

/-- `FrameOptions::padded_window_size`. -/
def padded_window_size (o : FrameOptions) : ℕ :=
  if o.round_to_power_of_two then nextPowerOfTwo (window_size o) else window_size o

/-- `first_sample_of_frame` from `src/window.rs` (result is `isize`). -/
def first_sample_of_frame (frame : ℕ) (o : FrameOptions) : ℤ :=
  if o.snip_edges then (frame : ℤ) * (window_shift o : ℤ)
  else
    ((window_shift o : ℤ) * (frame : ℤ) + (window_shift o : ℤ) / 2) -
      (window_size o : ℤ) / 2

/-- The `while num_frames > 0` adjustment loop in `num_frames`
(`src/window.rs`, non-snip branch): decrement while the last frame's end
sample exceeds `num_samples`. -/
def numFramesAdjust (num_samples : ℕ) (o : FrameOptions) : ℕ → ℕ
  | 0 => 0
  | nf + 1 =>
      if (num_samples : ℤ) < first_sample_of_frame nf o + (window_size o : ℤ) then
        numFramesAdjust num_samples o nf
      else nf + 1

/-- `num_frames` from `src/window.rs`.  In the non-snip branch the source
computes `(num_samples as f32 + frame_shift as f32 / 2.0) / frame_shift as f32`
and casts to `usize` (truncation = floor on the nonnegative values here). -/
def num_frames (num_samples : ℕ) (o : FrameOptions) (flush : Bool) : ℕ :=
  if o.snip_edges then
    if num_samples < window_size o then 0
    else 1 + (num_samples - window_size o) / window_shift o
  else
    let nf : ℕ :=
      (Int.floor (((num_samples : ℚ) + (window_shift o : ℚ) / 2) / (window_shift o : ℚ))).toNat
    if flush then nf else numFramesAdjust num_samples o nf

/-- One iteration of the reflective-padding loop body inside
`extract_window` (`src/window.rs`): `idx < 0 → -idx-1`,
`idx ≥ len → 2*len-1-idx`, identity once in range. -/
def reflectStep (len : ℕ) (idx : ℤ) : ℤ :=
  if idx < 0 then -idx - 1
  else if (len : ℤ) ≤ idx then 2 * (len : ℤ) - 1 - idx
  else idx

/-- Whether `idx` is a valid index into a buffer of length `len`
(the loop's continuation condition negated). -/
def reflectInRange (len : ℕ) (idx : ℤ) : Prop := 0 ≤ idx ∧ idx < (len : ℤ)

instance (len : ℕ) (idx : ℤ) : Decidable (reflectInRange len idx) := by
  unfold reflectInRange; infer_instance

/-- The reflective-padding `while` loop, run with explicit fuel.  The
source loop is unbounded; it terminates exactly when an in-range index is
reached (see the termination theorem below), and `|idx| + 1` steps always
suffice when the buffer is non-empty.  For an empty buffer the source loop
diverges, and the fuelled version's return value is never used meaningfully. -/
def reflectFuel : ℕ → ℕ → ℤ → ℤ
  | 0, _, idx => idx
  | fuel + 1, len, idx =>
      if idx < 0 ∨ (len : ℤ) ≤ idx then reflectFuel fuel len (reflectStep len idx)
      else idx

/-- The index actually read by `extract_window` after reflective padding. -/
def reflectIdx (len : ℕ) (idx : ℤ) : ℤ := reflectFuel (idx.natAbs + 1) len idx

/-- The sample-copy loop of `extract_window`: a buffer of
`padded` entries, entry `s < frameLen` holding the (reflected) wave sample
and the zero-padding elsewhere.  The final `if idx >= 0 && idx < len`
guard of the source leaves the zero in place when it fails. -/
def copySamples (offset : ℕ) (wave : List ℝ) (start : ℤ) (frameLen padded : ℕ) :
    List ℝ :=
  (List.range padded).map fun s =>
    if s < frameLen then
      let idx := reflectIdx wave.length ((s : ℤ) + (start - (offset : ℤ)))
      if 0 ≤ idx ∧ idx < (wave.length : ℤ) then wave.getD idx.toNat 0 else 0
    else 0

/-- The dither stage of `extract_window`; `rng i` is the `i`-th draw of the
injected random source (`rng.gen::<f32>()`). -/
noncomputable def ditherStage (d : ℚ) (rng : ℕ → ℝ) (frameLen : ℕ) (xs : List ℝ) : List ℝ :=
  if d ≠ 0 then
    xs.mapIdx fun i x => if i < frameLen then x + (d : ℝ) * (rng i - 1 / 2) else x
  else xs

/-- The DC-removal stage of `extract_window`: subtract the mean of the
first `frameLen` entries from each of them. -/
noncomputable def dcStage (remove : Bool) (frameLen : ℕ) (xs : List ℝ) : List ℝ :=
  if remove then
    let mean : ℝ := (xs.take frameLen).sum / (frameLen : ℝ)
    xs.mapIdx fun i x => if i < frameLen then x - mean else x
  else xs

/-- The pre-emphasis stage of `extract_window`.  The source loop runs
right-to-left in place, so `window_out[i] -= coeff * window_out[i-1]` reads
the pre-update predecessor for every `i ≥ 1`; after the loop the local
`last` holds the original `window_out[0]`, so the final line
`window_out[0] -= coeff * last` computes `x₀ - coeff * x₀`. -/
noncomputable def preemphStage (c : ℝ) (frameLen : ℕ) (xs : List ℝ) : List ℝ :=
  xs.mapIdx fun i x =>
    if i = 0 then x - c * x
    else if i < frameLen then x - c * xs.getD (i - 1) 0 else x

/-- Raw log-energy of `extract_window`:
`ln(max(Σ x², 1e-10))`, written as the source's branch. -/
noncomputable def rawLogEnergy (frameLen : ℕ) (xs : List ℝ) : ℝ :=
  let energy := ((xs.take frameLen).map fun x => x * x).sum
  if energy < 1e-10 then Real.log 1e-10 else Real.log energy

/-- `Window::apply` restricted to a slice: multiply the first
`min(|xs|, |data|)` entries elementwise, leave the rest unchanged. -/
noncomputable def windowApplyList (data xs : List ℝ) : List ℝ :=
  (xs.zipWith (fun x w => x * w) data) ++ xs.drop data.length

/-- A loop that computes `f` at each element and aborts on the first
`none` — the shape of the source loops that `return None` / panic from
inside an iteration. -/
def optionMapList {α β : Type} (f : α → Option β) : List α → Option (List β)
  | [] => some []
  | a :: l =>
      match f a with
      | none => none
      | some b =>
          match optionMapList f l with
          | none => none
          | some bs => some (b :: bs)

lemma optionMapList_eq_some_of_forall {α β : Type} (f : α → Option β) (g : α → β) :
    ∀ l : List α, (∀ a ∈ l, f a = some (g a)) → optionMapList f l = some (l.map g)
  | [], _ => rfl
  | a :: l, h => by
      have ha := h a (by simp)
      have hl := optionMapList_eq_some_of_forall f g l (fun x hx => h x (by simp [hx]))
      simp [optionMapList, ha, hl]

lemma optionMapList_isSome_of_forall {α β : Type} (f : α → Option β) :
    ∀ l : List α, (∀ a ∈ l, (f a).isSome) → (optionMapList f l).isSome
  | [], _ => by simp [optionMapList]
  | a :: l, h => by
      obtain ⟨b, hb⟩ := Option.isSome_iff_exists.mp (h a (by simp))
      obtain ⟨bs, hbs⟩ := Option.isSome_iff_exists.mp
        (optionMapList_isSome_of_forall f l (fun x hx => h x (by simp [hx])))
      simp [optionMapList, hb, hbs]

lemma optionMapList_eq_none_of_mem {α β : Type} (f : α → Option β) (a : α) :
    ∀ l : List α, a ∈ l → f a = none → optionMapList f l = none := by
  intro l
  induction l with
  | nil => intro h; simp at h
  | cons b l ih =>
      intro hmem hnone
      rcases List.mem_cons.mp hmem with h | h
      · subst h; simp [optionMapList, hnone]
      · have := ih h hnone
        cases hfb : f b <;> simp [optionMapList, hfb, this]

/-- The per-index window coefficient computed by the loop in
`Window::new` (`src/window.rs`); `none` models the `_ => return None` arm. -/
noncomputable def windowCoeff (o : FrameOptions) (size : ℕ) (i : ℕ) : Option ℝ :=
  let a : ℝ := 2 * Real.pi / ((size : ℝ) - 1)
  let aHann : ℝ := 2 * Real.pi / (size : ℝ)
  let x : ℝ := (i : ℝ)
  match o.window_type with
  | "hanning" => some (0.5 - 0.5 * Real.cos (a * x))
  | "sine" => some (Real.sin (0.5 * a * x))
  | "hamming" => some (0.54 - 0.46 * Real.cos (a * x))
  | "hann" => some (0.50 - 0.50 * Real.cos (aHann * x))
  | "povey" => some ((0.5 - 0.5 * Real.cos (a * x)) ^ (0.85 : ℝ))
  | "rectangular" => some 1
  | "blackman" =>
      some ((o.blackman_coeff : ℝ) - 0.5 * Real.cos (a * x) +
        ((0.5 : ℝ) - (o.blackman_coeff : ℝ)) * Real.cos (2 * a * x))
  | _ => none

/-- `Window::new`: `None` for a zero-size window, and the loop over
`0..size` with an early `return None` on an unrecognized type (mapM over
`Option` models the early return). -/
noncomputable def windowNew (o : FrameOptions) : Option (List ℝ) :=
  if window_size o = 0 then none
  else optionMapList (windowCoeff o (window_size o)) (List.range (window_size o))

/-- The buffer of `extract_window` after the copy, dither and DC-removal
stages (`window_out` just before pre-emphasis). -/
noncomputable def extractPre (rng : ℕ → ℝ) (sample_offset : ℕ) (wave : List ℝ)
    (frame_index : ℕ) (o : FrameOptions) : List ℝ :=
  dcStage o.remove_dc_offset (window_size o)
    (ditherStage o.dither rng (window_size o)
      (copySamples sample_offset wave (first_sample_of_frame frame_index o)
        (window_size o) (padded_window_size o)))

/-- The buffer of `extract_window` after the (conditional) pre-emphasis
stage: the pre-window signal whose energy is returned. -/
noncomputable def extractSignal (rng : ℕ → ℝ) (sample_offset : ℕ) (wave : List ℝ)
    (frame_index : ℕ) (o : FrameOptions) : List ℝ :=
  if o.preemph_coeff ≠ 0 then
    preemphStage (o.preemph_coeff : ℝ) (window_size o)
      (extractPre rng sample_offset wave frame_index o)
  else extractPre rng sample_offset wave frame_index o

/-- The raw log-energy returned by `extract_window` (computed on the
pre-window signal). -/
noncomputable def extractEnergy (rng : ℕ → ℝ) (sample_offset : ℕ) (wave : List ℝ)
    (frame_index : ℕ) (o : FrameOptions) : ℝ :=
  rawLogEnergy (window_size o) (extractSignal rng sample_offset wave frame_index o)

/-- The final buffer of `extract_window`: the pre-window signal with the
window coefficients multiplied into its first `frame_length` entries. -/
noncomputable def extractBuf (rng : ℕ → ℝ) (sample_offset : ℕ) (wave : List ℝ)
    (frame_index : ℕ) (o : FrameOptions) (window_function : Option (List ℝ)) :
    List ℝ :=
  match window_function with
  | none => extractSignal rng sample_offset wave frame_index o
  | some data =>
      windowApplyList data
          ((extractSignal rng sample_offset wave frame_index o).take (window_size o)) ++
        (extractSignal rng sample_offset wave frame_index o).drop (window_size o)

/-- `extract_window` from `src/window.rs`.  Returns the final (windowed,
zero-padded) buffer together with the raw log-energy, or `none` where the
source returns `Err(())`. -/
noncomputable def extract_window (rng : ℕ → ℝ) (sample_offset : ℕ) (wave : List ℝ)
    (frame_index : ℕ) (o : FrameOptions) (window_function : Option (List ℝ)) :
    Option (List ℝ × ℝ) :=
  if o.snip_edges = true ∧ (first_sample_of_frame frame_index o < (sample_offset : ℤ) ∨
      ((sample_offset + wave.length : ℕ) : ℤ) <
        first_sample_of_frame frame_index o + (window_size o : ℤ)) then none
  else if ¬o.snip_edges = true ∧ ¬(sample_offset = 0 ∨
      (sample_offset : ℤ) ≤ first_sample_of_frame frame_index o) then none
  else
    some (extractBuf rng sample_offset wave frame_index o window_function,
      extractEnergy rng sample_offset wave frame_index o)

/-- `MelOptions` from `src/mel.rs` (fields not read by `MelBanks::new` or
`compute` are omitted as irrelevant to any claim: `htk_mode`, `is_librosa`,
`use_slaney_mel_scale`, `norm`, `floor_to_int_bin`, `debug_mel`). -/
structure MelOptions where
  num_bins : ℕ
  low_freq : ℚ
  high_freq : ℚ
  vtln_low : ℚ
  vtln_high : ℚ

/-- `num_fft_bins = padded_window_size / 2` as computed in `MelBanks::new`. -/
def numFftBins (f : FrameOptions) : ℕ := padded_window_size f / 2

/-- The effective upper frequency bound in `MelBanks::new`:
the configured value when positive, else `nyquist + configured`. -/
def melHighFreq (m : MelOptions) (f : FrameOptions) : ℚ :=
  let nyquist := (1 / 2 : ℚ) * f.samp_freq
  if 0 < m.high_freq then m.high_freq else nyquist + m.high_freq

/-- The error condition of `MelBanks::new` (`src/mel.rs` lines 60-67),
exactly as the source writes it. -/
def melBanksInvalid (m : MelOptions) (f : FrameOptions) : Bool :=
  let nyquist := (1 / 2 : ℚ) * f.samp_freq
  let high := melHighFreq m f
  decide (m.low_freq < 0) || decide (nyquist ≤ m.low_freq) || decide (high ≤ 0) ||
    decide (nyquist < high) || decide (high ≤ m.low_freq)

/-- `MelBanks::mel_scale`: `1127 ln(1 + f/700)`. -/
noncomputable def mel_scale (freq : ℝ) : ℝ := 1127 * Real.log (1 + freq / 700)

/-- `MelBanks::inverse_mel_scale`. -/
noncomputable def inverse_mel_scale (mel : ℝ) : ℝ := 700 * (Real.exp (mel / 1127) - 1)

/-- `MelBanks::vtln_warp_freq` (piecewise-linear VTLN map). -/
noncomputable def vtln_warp_freq (vtlnLow vtlnHigh lowFreq highFreq warp freq : ℝ) : ℝ :=
  if freq < lowFreq ∨ highFreq < freq then freq
  else
    let l := vtlnLow * max 1 warp
    let h := vtlnHigh * min 1 warp
    let scale := 1 / warp
    let fl := scale * l
    let fh := scale * h
    if freq < l then lowFreq + (fl - lowFreq) / (l - lowFreq) * (freq - lowFreq)
    else if freq < h then scale * freq
    else highFreq + (highFreq - fh) / (highFreq - h) * (freq - highFreq)

/-- `MelBanks::vtln_warp_mel`. -/
noncomputable def vtln_warp_mel (vtlnLow vtlnHigh lowFreq highFreq warp mel : ℝ) : ℝ :=
  mel_scale (vtln_warp_freq vtlnLow vtlnHigh lowFreq highFreq warp (inverse_mel_scale mel))

/-- The three (possibly VTLN-warped) mel boundaries of bin `bin` in
`MelBanks::new`: `(left, center, right)`. -/
noncomputable def melBinBoundaries (m : MelOptions) (f : FrameOptions) (warp : ℝ)
    (bin : ℕ) : ℝ × ℝ × ℝ :=
  let nyquist : ℚ := (1 / 2 : ℚ) * f.samp_freq
  let high := melHighFreq m f
  let melLow := mel_scale (m.low_freq : ℝ)
  let melHigh := mel_scale (high : ℝ)
  let melDelta := (melHigh - melLow) / ((m.num_bins : ℝ) + 1)
  let vtlnLow : ℝ := (m.vtln_low : ℝ)
  let vtlnHigh : ℝ := if m.vtln_high < 0 then (m.vtln_high : ℝ) + (nyquist : ℝ) else (m.vtln_high : ℝ)
  let left := melLow + (bin : ℝ) * melDelta
  let center := melLow + ((bin : ℝ) + 1) * melDelta
  let right := melLow + ((bin : ℝ) + 2) * melDelta
  if 1e-5 < |warp - 1| then
    (vtln_warp_mel vtlnLow vtlnHigh (m.low_freq : ℝ) (high : ℝ) warp left,
     vtln_warp_mel vtlnLow vtlnHigh (m.low_freq : ℝ) (high : ℝ) warp center,
     vtln_warp_mel vtlnLow vtlnHigh (m.low_freq : ℝ) (high : ℝ) warp right)
  else (left, center, right)

/-- The triangular-membership value computed in the inner loop of
`MelBanks::new`: 0 outside `(left, right)`, the rising or falling linear
ramp inside. -/
noncomputable def triangleWeight (l c r mel : ℝ) : ℝ :=
  if l < mel ∧ mel < r then
    if mel ≤ c then (mel - l) / (c - l) else (r - mel) / (r - c)
  else 0

/-- The weight stored at `weights[bin * num_fft_bins + i]` by
`MelBanks::new`: the triangular-membership value when it is positive, and
the vector's initial `0.0` otherwise (`if weight > 0.0` store). -/
noncomputable def melWeight (m : MelOptions) (f : FrameOptions) (warp : ℝ)
    (bin i : ℕ) : ℝ :=
  let b := melBinBoundaries m f warp bin
  let freq := (f.samp_freq : ℝ) / (padded_window_size f : ℝ) * (i : ℝ)
  let w := triangleWeight b.1 b.2.1 b.2.2 (mel_scale freq)
  if 0 < w then w else 0

/-- The `MelBanks` record: bin count, spectral-bin count, and the weight
matrix as a function (flattened `Vec` in the source). -/
structure MelBanks where
  num_bins : ℕ
  num_fft_bins : ℕ
  weights : ℕ → ℕ → ℝ

/-- `MelBanks::new`: the validity check followed by weight construction. -/
noncomputable def melBanksNew (m : MelOptions) (f : FrameOptions) (warp : ℝ) :
    Option MelBanks :=
  if melBanksInvalid m f then none
  else some ⟨m.num_bins, numFftBins f, melWeight m f warp⟩

/-- `MelBanks::compute`: dense matrix-vector product against the first
`num_fft_bins` entries of the power spectrum. -/
noncomputable def melBanksCompute (b : MelBanks) (fftEnergies : List ℝ) : List ℝ :=
  (List.range b.num_bins).map fun r =>
    ((List.range b.num_fft_bins).map fun c => b.weights r c * fftEnergies.getD c 0).sum

/-- `inner_product` from `src/utils.rs`. -/
noncomputable def inner_product (a b : List ℝ) : ℝ :=
  (a.zipWith (fun x y => x * y) b).sum

/-- `log_energy` from `src/utils.rs`: clamp at `1e-20` before `ln`. -/
noncomputable def log_energy (energy : ℝ) : ℝ :=
  Real.log (if energy < 1e-20 then 1e-20 else energy)

/-- `compute_power_spectrum_inplace` from `src/utils.rs` on a packed
spectrum buffer: position `0` becomes `spec[0]²`, positions `1 ≤ i < len/2`
become `spec[2i]² + spec[2i+1]²` (reading the original buffer: each write
at `i` reads positions `2i, 2i+1 > i` not yet overwritten), position
`len/2` becomes `spec[1]²`, and positions beyond `len/2` keep their old
values. -/
noncomputable def compute_power_spectrum (spec : List ℝ) : List ℝ :=
  let halfDim := spec.length / 2
  (List.range spec.length).map fun i =>
    if i = 0 then spec.getD 0 0 * spec.getD 0 0
    else if i < halfDim then
      spec.getD (2 * i) 0 * spec.getD (2 * i) 0 +
        spec.getD (2 * i + 1) 0 * spec.getD (2 * i + 1) 0
    else if i = halfDim then spec.getD 1 0 * spec.getD 1 0
    else spec.getD i 0

/-- Modelled from the spec (§4.4): the packed forward real transform.  The
transform body lives in the external `realfft` crate, which is not part of
this repository; `src/rfft.rs` only repacks its output as
`[Re 0, Re n/2, Re 1, Im 1, Re 2, Im 2, …]` (index 1 is `0` for odd `n`).
The DFT is `X_k = Σ_j x_j e^{-2πijk/n}`. -/
noncomputable def rfftForward (n : ℕ) (xs : List ℝ) : List ℝ :=
  let re : ℕ → ℝ := fun k =>
    ((List.range n).map fun j =>
      xs.getD j 0 * Real.cos (2 * Real.pi * (j : ℝ) * (k : ℝ) / (n : ℝ))).sum
  let im : ℕ → ℝ := fun k =>
    -((List.range n).map fun j =>
      xs.getD j 0 * Real.sin (2 * Real.pi * (j : ℝ) * (k : ℝ) / (n : ℝ))).sum
  (List.range n).map fun j =>
    if j = 0 then re 0
    else if j = 1 then (if n % 2 = 0 then re (n / 2) else 0)
    else if j % 2 = 0 then re (j / 2)
    else im (j / 2)

/-- `FbankOptions` from `src/fbank.rs`. -/
structure FbankOptions where
  frame_opts : FrameOptions
  mel_opts : MelOptions
  use_energy : Bool
  raw_energy : Bool
  htk_compat : Bool
  energy_floor : ℚ
  use_log_fbank : Bool
  use_power : Bool

/-- `FbankComputer::dim` (`src/fbank.rs` lines 60-67). -/
def fbankDim (o : FbankOptions) : ℕ :=
  o.mel_opts.num_bins + if o.use_energy ∧ ¬o.htk_compat then 1 else 0

/-- The index at which `FbankComputer::compute` step 7 writes the energy:
`num_bins` in HTK-compat mode, else `0`. -/
def fbankEnergyIndex (o : FbankOptions) : ℕ :=
  if o.htk_compat then o.mel_opts.num_bins else 0

/-- `log_energy_floor` computed in `FbankComputer::new` (and identically in
`MfccComputer::new`). -/
noncomputable def logEnergyFloor (energy_floor : ℚ) : ℝ :=
  if 0 < energy_floor then Real.log (energy_floor : ℝ) else -1e10

/-- `FbankComputer::compute` (`src/fbank.rs`).  The output vector has
`dim()` entries; the energy write of step 7 targets `fbankEnergyIndex`,
which `List.set` drops silently when it is out of bounds — in the source
that write is `feature[energy_index] = …` and PANICS out of bounds (see
the C2 theorem: with `use_energy` and `htk_compat` the index equals
`dim()`). -/
noncomputable def fbankCompute (o : FbankOptions) (signalFrame : List ℝ)
    (signalRawLogEnergy : ℝ) : List ℝ :=
  let rawE :=
    if o.use_energy ∧ ¬o.raw_energy then log_energy (inner_product signalFrame signalFrame)
    else signalRawLogEnergy
  let spec := compute_power_spectrum (rfftForward (padded_window_size o.frame_opts) signalFrame)
  let spec := if ¬o.use_power then spec.map Real.sqrt else spec
  let melOffset := if o.use_energy ∧ ¬o.htk_compat then 1 else 0
  let fftBins := numFftBins o.frame_opts + 1
  let banks : MelBanks := ⟨o.mel_opts.num_bins, numFftBins o.frame_opts, melWeight o.mel_opts o.frame_opts 1⟩
  let mel := melBanksCompute banks (spec.take fftBins)
  let mel := if o.use_log_fbank then mel.map log_energy else mel
  let feature := List.replicate melOffset (0 : ℝ) ++ mel
  if o.use_energy then
    let e := if 0 < o.energy_floor ∧ rawE < logEnergyFloor o.energy_floor
             then logEnergyFloor o.energy_floor else rawE
    feature.set (fbankEnergyIndex o) e
  else feature

/-- `MfccOptions` from `src/mfcc.rs`. -/
structure MfccOptions where
  frame_opts : FrameOptions
  mel_opts : MelOptions
  num_ceps : ℕ
  cepstral_lifter : ℚ
  use_energy : Bool
  raw_energy : Bool
  htk_compat : Bool
  energy_floor : ℚ

/-- The DCT matrix entry `dct_matrix[i * num_bins + j]` built in
`MfccComputer::new`. -/
noncomputable def dctMatrixEntry (numBins : ℕ) (i j : ℕ) : ℝ :=
  if i = 0 then Real.sqrt (1 / (numBins : ℝ))
  else Real.sqrt (2 / (numBins : ℝ)) *
    Real.cos (Real.pi / (numBins : ℝ) * ((j : ℝ) + 0.5) * (i : ℝ))

/-- The lifter coefficient `lifter_coeffs[i]` built in `MfccComputer::new`
(`1.0` throughout when the lifter parameter is zero). -/
noncomputable def lifterCoeff (l : ℚ) (i : ℕ) : ℝ :=
  if l ≠ 0 then 1 + 0.5 * (l : ℝ) * Real.sin (Real.pi * (i : ℝ) / (l : ℝ)) else 1

/-- `MfccComputer::compute` (`src/mfcc.rs`) up to and including the
energy-replacement step — i.e. the cepstral vector just before the final
HTK-compat block.  `htk_compat` is not consulted anywhere in here. -/
noncomputable def mfccPreHtk (o : MfccOptions) (signalFrame : List ℝ)
    (signalRawLogEnergy : ℝ) : List ℝ :=
  let rawE :=
    if o.use_energy ∧ ¬o.raw_energy then log_energy (inner_product signalFrame signalFrame)
    else signalRawLogEnergy
  let spec := compute_power_spectrum (rfftForward (padded_window_size o.frame_opts) signalFrame)
  let fftBins := numFftBins o.frame_opts + 1
  let banks : MelBanks := ⟨o.mel_opts.num_bins, numFftBins o.frame_opts, melWeight o.mel_opts o.frame_opts 1⟩
  let mel := (melBanksCompute banks (spec.take fftBins)).map log_energy
  let feature := (List.range o.num_ceps).map fun i =>
    ((List.range o.mel_opts.num_bins).map fun j =>
      dctMatrixEntry o.mel_opts.num_bins i j * mel.getD j 0).sum
  let feature :=
    if o.cepstral_lifter ≠ 0 then feature.mapIdx fun i v => v * lifterCoeff o.cepstral_lifter i
    else feature
  if o.use_energy then
    feature.set 0 (if 0 < o.energy_floor ∧ rawE < logEnergyFloor o.energy_floor
      then logEnergyFloor o.energy_floor else rawE)
  else feature

/-- `MfccComputer::compute` (`src/mfcc.rs`).  In HTK-compat mode the final
block rotates the vector left by one and writes `energy = feature[0]`
(scaled by `√2` when `use_energy` is off) into the last slot.  (At
`num_ceps = 0` the source's `feature[0]` read panics; the `[]` arm below is
never reached in the claims, which use `num_ceps = 13`.) -/
noncomputable def mfccCompute (o : MfccOptions) (signalFrame : List ℝ)
    (signalRawLogEnergy : ℝ) : List ℝ :=
  if o.htk_compat then
    match mfccPreHtk o signalFrame signalRawLogEnergy with
    | [] => []
    | x :: rest => rest ++ [if o.use_energy then x else Real.sqrt 2 * x]
  else mfccPreHtk o signalFrame signalRawLogEnergy

/-- The mutable state of `OnlineFeature` (`src/online.rs`).  The feature
computer and its options are immutable and passed separately: the per-frame
computation `FeatureComputer::compute` is a pure function of the window
buffer and the raw log-energy, abstracted below as `cf`. -/
structure OnlineState where
  waveform : List ℝ
  waveform_offset : ℕ
  input_finished : Bool
  features : List (List ℝ)
  window_function : Option (List ℝ)

/-- `OnlineFeature::new`. -/
noncomputable def onlineNew (o : FrameOptions) : OnlineState :=
  ⟨[], 0, false, [], windowNew o⟩

/-- The number of determined-ready frames seen by `compute_new`. -/
def readyFrames (o : FrameOptions) (s : OnlineState) : ℕ :=
  num_frames (s.waveform_offset + s.waveform.length) o s.input_finished

/-- The garbage-collection amount of `compute_new`:
`first_sample_of_frame(new_frames) - waveform_offset`. -/
def gcDiscard (o : FrameOptions) (s : OnlineState) : ℤ :=
  first_sample_of_frame (readyFrames o s) o - (s.waveform_offset : ℤ)

/-- `OnlineFeature::compute_new` (`src/online.rs` lines 94-140): count the
newly determined frames, extract and compute each (the `.expect` on a
failed extraction panics — modelled as `none`), then garbage-collect the
consumed waveform prefix when `0 < discard ≤ waveform.len()`. -/
noncomputable def computeNew (cf : List ℝ → ℝ → List ℝ) (o : FrameOptions)
    (rng : ℕ → ℝ) (s : OnlineState) : Option OnlineState :=
  if readyFrames o s ≤ s.features.length then some s
  else
    match optionMapList (fun f =>
        (extract_window rng s.waveform_offset s.waveform f o s.window_function).map
          fun p => cf p.1 p.2)
        (List.range' s.features.length (readyFrames o s - s.features.length)) with
    | none => none
    | some newFeats =>
        if 0 < gcDiscard o s ∧ gcDiscard o s ≤ (s.waveform.length : ℤ) then
          some { s with features := s.features ++ newFeats,
                        waveform := s.waveform.drop (gcDiscard o s).toNat,
                        waveform_offset := s.waveform_offset + (gcDiscard o s).toNat }
        else some { s with features := s.features ++ newFeats }

/-- `OnlineFeature::accept_waveform`: panic (`none`) when the claimed
sample rate differs from the configured one by more than `1.0`, else
append the chunk and run `compute_new`. -/
noncomputable def acceptWaveform (cf : List ℝ → ℝ → List ℝ) (o : FrameOptions)
    (rng : ℕ → ℝ) (samplingRate : ℚ) (chunk : List ℝ) (s : OnlineState) :
    Option OnlineState :=
  if 1 < |samplingRate - o.samp_freq| then none
  else computeNew cf o rng { s with waveform := s.waveform ++ chunk }

/-- `OnlineFeature::input_finished`. -/
noncomputable def inputFinished (cf : List ℝ → ℝ → List ℝ) (o : FrameOptions)
    (rng : ℕ → ℝ) (s : OnlineState) : Option OnlineState :=
  computeNew cf o rng { s with input_finished := true }

/-- `OnlineFeature::num_frames_ready`. -/
def num_frames_ready (s : OnlineState) : ℕ := s.features.length

/-- `OnlineFeature::get_frame`: `features.get(frame)`, an `Option` — no
abort for an out-of-range index. -/
def get_frame (s : OnlineState) (frame : ℕ) : Option (List ℝ) :=
  s.features.get? frame

/-- A full session: `accept_waveform` once per chunk, then
`input_finished`, starting from a fresh `OnlineFeature`. -/
noncomputable def runChunks (cf : List ℝ → ℝ → List ℝ) (o : FrameOptions)
    (rng : ℕ → ℝ) (samplingRate : ℚ) (chunks : List (List ℝ)) :
    Option OnlineState :=
  (chunks.foldlM (fun s c => acceptWaveform cf o rng samplingRate c s) (onlineNew o)).bind
    (inputFinished cf o rng)

/-! ## Concrete configurations used by witnesses and counterexamples -/

/-- A snip-edges configuration with the library's default frame geometry
(16 kHz, 25 ms / 10 ms ⇒ 400 / 160 samples), dither disabled. -/
def cfgSnip16k : FrameOptions :=
  ⟨16000, 10, 25, 0, 0, false, "povey", true, 21 / 50, true⟩

/-- The non-snip configuration of the C1 counterexample: 1 kHz, 4 ms shift /
3 ms length ⇒ `window_shift = 4 > window_size = 3`, rectangular window,
dither / pre-emphasis / DC-removal all off, no transform padding. -/
def cfgNonSnip : FrameOptions :=
  ⟨1000, 4, 3, 0, 0, false, "rectangular", false, 21 / 50, false⟩

/-- Default-style mel options (25 bins, 20 Hz low, `high_freq = 0` ⇒
effective Nyquist bound). -/
def melDefault : MelOptions := ⟨25, 20, 0, 100, -500⟩

/-- Fbank options for the C1 counterexample: energy appended at position 0
(`use_energy`, `raw_energy`, not HTK-compat, zero energy floor). -/
def fbankNonSnip : FbankOptions :=
  ⟨cfgNonSnip, melDefault, true, true, false, 0, true, true⟩

/-- An fbank configuration with `use_energy` and `htk_compat` both set
(the C2 failing input). -/
def fbankHtk : FbankOptions :=
  ⟨cfgSnip16k, melDefault, true, true, true, 0, true, true⟩

/-! ## C6: snip-regime frame count -/

/-- C6: in the snip-edges regime the number of frames for `n` samples is
`0` when `n < frame_samples` and `1 + (n - frame_samples) / shift_samples`
(floor division) otherwise, independently of the flush flag.
(`window_shift > 0` is assumed: at `window_shift = 0` the source divides by
zero and panics, so the claimed formula has no meaning there.) -/
theorem snip_frame_count (o : FrameOptions) (n : ℕ) (flush : Bool)
    (hs : o.snip_edges = true) :
    num_frames n o flush =
      if n < window_size o then 0
      else 1 + (n - window_size o) / window_shift o := by
  simp [num_frames, hs]

/-- C6 witness: `frame_samples = 400`, `shift_samples = 160`, `n = 16000`
gives `98` frames, with either flush flag. -/
theorem snip_frame_count_witness :
    cfgSnip16k.snip_edges = true ∧
      num_frames 16000 cfgSnip16k true = 98 ∧
      num_frames 16000 cfgSnip16k false = 98 := by
  refine ⟨rfl, ?_, ?_⟩ <;>
  · rw [snip_frame_count cfgSnip16k 16000 _ rfl]
    norm_num [window_size, window_shift, cfgSnip16k]
    decide

/-! ## C5: mel filterbank validity precondition -/

/-- The validity precondition exactly as the spec states it:
`0 ≤ low_freq < nyquist`, `0 < high_freq ≤ nyquist`, `high_freq > low_freq`,
with `high_freq` the effective bound. -/
def melValidSpec (m : MelOptions) (f : FrameOptions) : Prop :=
  0 ≤ m.low_freq ∧ m.low_freq < (1 / 2 : ℚ) * f.samp_freq ∧
    0 < melHighFreq m f ∧ melHighFreq m f ≤ (1 / 2 : ℚ) * f.samp_freq ∧
    m.low_freq < melHighFreq m f

/-- C5: `MelBanks::new` fails with the invalid-configuration error exactly
when the spec's validity precondition is violated. -/
theorem mel_banks_error_iff (m : MelOptions) (f : FrameOptions) (warp : ℝ) :
    melBanksNew m f warp = none ↔ ¬ melValidSpec m f := by
  have hsplit : melBanksNew m f warp = none ↔ melBanksInvalid m f = true := by
    by_cases h : melBanksInvalid m f = true <;> simp [melBanksNew, h]
  rw [hsplit]
  simp only [melBanksInvalid, melValidSpec, Bool.or_eq_true, decide_eq_true_eq,
    not_and_or, not_lt, not_le]
  tauto

/-! ## C2: fbank output dimension and the HTK-compat energy write -/

/-- C2 (code bug): with `use_energy` and `htk_compat` both set,
`FbankComputer::compute` step 7 writes the energy at index
`num_bins = dim()`, one past the end of the `dim()`-sized output vector —
in the source this `feature[energy_index] = …` write panics, contradicting
the claim that every access is in bounds. -/
theorem fbank_htk_energy_write_out_of_bounds (o : FbankOptions)
    (hE : o.use_energy = true) (hH : o.htk_compat = true) :
    fbankEnergyIndex o = fbankDim o := by
  simp [fbankEnergyIndex, fbankDim, hE, hH]

/-- C2 witness: the concrete failing configuration. -/
theorem fbank_htk_energy_write_out_of_bounds_witness :
    fbankHtk.use_energy = true ∧ fbankHtk.htk_compat = true ∧
      fbankEnergyIndex fbankHtk = fbankDim fbankHtk :=
  ⟨rfl, rfl, fbank_htk_energy_write_out_of_bounds fbankHtk rfl rfl⟩

/-! ## C10: termination of the mirror-reflection loop -/

/-- Each out-of-range reflection step strictly decreases `|idx|` when the
buffer is non-empty. -/
lemma reflectStep_natAbs_lt (len : ℕ) (idx : ℤ) (hlen : 1 ≤ len)
    (h : ¬ reflectInRange len idx) : (reflectStep len idx).natAbs < idx.natAbs := by
  unfold reflectInRange at h
  unfold reflectStep
  by_cases h0 : idx < 0
  · simp only [h0, if_true]
    omega
  · have hge : (len : ℤ) ≤ idx := by omega
    simp only [h0, if_false, hge, if_true]
    omega

/-- C10: with a non-empty sample buffer the reflection loop of
`extract_window` reaches an in-range index in finitely many steps from any
start index; with an empty buffer no iterate is ever in range (the loop
condition never becomes false, so the source loop diverges). -/
theorem reflect_loop_termination :
    (∀ (len : ℕ) (idx : ℤ), 1 ≤ len →
        ∃ n : ℕ, reflectInRange len ((reflectStep len)^[n] idx)) ∧
      (∀ (idx : ℤ) (n : ℕ), ¬ reflectInRange 0 ((reflectStep 0)^[n] idx)) := by
  constructor
  · have main : ∀ (m : ℕ) (len : ℕ) (idx : ℤ), 1 ≤ len → idx.natAbs ≤ m →
        ∃ n : ℕ, reflectInRange len ((reflectStep len)^[n] idx) := by
      intro m
      induction m with
      | zero =>
          intro len idx hlen h0
          refine ⟨0, ?_⟩
          have : idx = 0 := by omega
          subst this
          simp only [Function.iterate_zero_apply]
          unfold reflectInRange
          omega
      | succ m ih =>
          intro len idx hlen hle
          by_cases h : reflectInRange len idx
          · exact ⟨0, h⟩
          · obtain ⟨n, hn⟩ := ih len (reflectStep len idx) hlen
              (by have := reflectStep_natAbs_lt len idx hlen h; omega)
            exact ⟨n + 1, by rwa [Function.iterate_succ_apply]⟩
    exact fun len idx hlen => main idx.natAbs len idx hlen le_rfl
  · intro idx n
    unfold reflectInRange
    omega

/-- C10 witness: the loop from index `-5` over a one-sample buffer reaches
an in-range index; over an empty buffer no iterate ever is in range. -/
theorem reflect_loop_termination_witness :
    (∃ n : ℕ, reflectInRange 1 ((reflectStep 1)^[n] (-5))) ∧
      ¬ reflectInRange 0 ((reflectStep 0)^[2] 7) :=
  ⟨reflect_loop_termination.1 1 (-5) (by norm_num), reflect_loop_termination.2 7 2⟩

/-! ## C9: window-type enumerants -/

/-- The window types recognized by `Window::new` (note `"hanning"`, not
`"triangular"`). -/
def recognizedWindowTypes : List String :=
  ["hanning", "sine", "hamming", "hann", "povey", "rectangular", "blackman"]

/-- C9 (amended): `Window::new` produces a coefficient table exactly for a
positive window size and a window type among
{hanning, sine, hamming, hann, povey, rectangular, blackman}; every other
type (in particular `"triangular"`) yields `None` at construction time. -/
theorem window_new_some_iff (o : FrameOptions) :
    (windowNew o).isSome ↔
      1 ≤ window_size o ∧ o.window_type ∈ recognizedWindowTypes := by
  unfold windowNew
  by_cases hz : window_size o = 0
  · simp [hz]
  · have h1 : 1 ≤ window_size o := Nat.one_le_iff_ne_zero.mpr hz
    simp only [hz, if_false, h1, true_and]
    constructor
    · intro hs
      by_contra hmem
      simp only [recognizedWindowTypes, List.mem_cons, List.mem_singleton,
        List.not_mem_nil, or_false, not_or] at hmem
      obtain ⟨n1, n2, n3, n4, n5, n6, n7⟩ := hmem
      have hnone : windowCoeff o (window_size o) 0 = none := by
        simp [windowCoeff, n1, n2, n3, n4, n5, n6, n7]
      rw [optionMapList_eq_none_of_mem _ 0 _ (by simp [List.mem_range]; omega) hnone] at hs
      simp at hs
    · intro hmem
      refine optionMapList_isSome_of_forall _ _ (fun i _ => ?_)
      simp only [recognizedWindowTypes, List.mem_cons, List.mem_singleton,
        List.not_mem_nil, or_false] at hmem
      rcases hmem with h | h | h | h | h | h | h <;> simp [windowCoeff, h]

/-- C9 witness (for the amended theorem): a recognized type with a
one-sample window succeeds. -/
theorem window_new_some_iff_witness :
    1 ≤ window_size cfgNonSnip ∧ cfgNonSnip.window_type ∈ recognizedWindowTypes ∧
      (windowNew cfgNonSnip).isSome := by
  have h1 : 1 ≤ window_size cfgNonSnip := by
    norm_num [window_size, cfgNonSnip]
  have h2 : cfgNonSnip.window_type ∈ recognizedWindowTypes := by
    simp [cfgNonSnip, recognizedWindowTypes]
  exact ⟨h1, h2, (window_new_some_iff cfgNonSnip).mpr ⟨h1, h2⟩⟩

/-- The `"triangular"` configuration of the C9 counterexample (window size
1 sample at 1 kHz / 1 ms). -/
def cfgTriangular : FrameOptions :=
  ⟨1000, 1, 1, 0, 0, false, "triangular", false, 21 / 50, true⟩

/-- C9 counterexample: `"triangular"` is in the claim's enumerant set but
`Window::new` rejects it (the recognized spelling is `"hanning"`). -/
theorem window_new_triangular_counterexample :
    windowNew cfgTriangular = none := by
  have hsz : window_size cfgTriangular = 1 := by
    norm_num [window_size, cfgTriangular]
  have hnone : windowCoeff cfgTriangular 1 0 = none := by
    simp [windowCoeff, cfgTriangular]
  unfold windowNew
  rw [hsz, if_neg (by norm_num : ¬(1 = 0))]
  rw [show List.range 1 = [0] from rfl]
  simp [optionMapList, hnone]

/-! ## C8: runtime precondition violations -/

lemma window_size_cfgSnip16k : window_size cfgSnip16k = 400 := by
  norm_num [window_size, cfgSnip16k]
  decide

/-- C8 (amended): `accept_waveform` aborts exactly when the supplied rate
differs from the configured rate by more than `1.0` (otherwise it proceeds
to the append-and-compute step), and `get_frame` returns `None` — it does
not abort — exactly for indices at or beyond the computed range. -/
theorem accept_and_get_frame_behavior (cf : List ℝ → ℝ → List ℝ)
    (o : FrameOptions) (rng : ℕ → ℝ) (rate : ℚ) (chunk : List ℝ)
    (s : OnlineState) (i : ℕ) :
    (1 < |rate - o.samp_freq| → acceptWaveform cf o rng rate chunk s = none) ∧
      (|rate - o.samp_freq| ≤ 1 →
        acceptWaveform cf o rng rate chunk s =
          computeNew cf o rng { s with waveform := s.waveform ++ chunk }) ∧
      (get_frame s i = none ↔ s.features.length ≤ i) := by
  refine ⟨fun h => ?_, fun h => ?_, ?_⟩
  · simp [acceptWaveform, h]
  · simp [acceptWaveform, not_lt.mpr h]
  · simp [get_frame, List.get?_eq_none]

/-- C8 witness (for the amended theorem): a 2 Hz mismatch aborts. -/
theorem accept_and_get_frame_behavior_witness :
    acceptWaveform (fun _ _ => ([] : List ℝ)) cfgSnip16k (fun _ => 0) 16002 []
        (onlineNew cfgSnip16k) = none :=
  (accept_and_get_frame_behavior _ cfgSnip16k _ 16002 [] _ 0).1
    (by norm_num [cfgSnip16k])

/-- C8 counterexample: a supplied rate of `16000.5` is *not equal* to the
configured `16000`, yet `accept_waveform` succeeds (the source only panics
beyond a `1.0` tolerance); and `get_frame` on an out-of-range index
returns `None` instead of aborting. -/
theorem accept_rate_mismatch_counterexample :
    (16000.5 : ℚ) ≠ cfgSnip16k.samp_freq ∧
      acceptWaveform (fun _ _ => ([] : List ℝ)) cfgSnip16k (fun _ => 0) 16000.5 []
          (onlineNew cfgSnip16k) = some (onlineNew cfgSnip16k) ∧
      get_frame (onlineNew cfgSnip16k) 3 = none := by
  refine ⟨by norm_num [cfgSnip16k], ?_, by simp [get_frame, onlineNew]⟩
  have hguard : ¬ (1 : ℚ) < |(16000.5 : ℚ) - cfgSnip16k.samp_freq| := by
    rw [not_lt, abs_le]
    constructor <;> norm_num [cfgSnip16k]
  rw [acceptWaveform, if_neg hguard]
  have hstate : { onlineNew cfgSnip16k with
      waveform := (onlineNew cfgSnip16k).waveform ++ [] } = onlineNew cfgSnip16k := by
    simp
  rw [hstate, computeNew]
  have hnf : num_frames 0 cfgSnip16k false = 0 := by
    have hsnip : cfgSnip16k.snip_edges = true := rfl
    simp [num_frames, hsnip, window_size_cfgSnip16k]
  simp [onlineNew, readyFrames, hnf]

/-! ## C3: pre-emphasis convention -/

lemma getD_mapIdx {α : Type} (f : ℕ → α → α) :
    ∀ (xs : List α) (i : ℕ) (d : α), i < xs.length →
      (xs.mapIdx f).getD i d = f i (xs.getD i d)
  | [], i, d, h => by simp at h
  | a :: l, 0, d, _ => by simp [List.mapIdx_cons]
  | a :: l, i + 1, d, h => by
      simp only [List.mapIdx_cons, List.getD_cons_succ]
      exact getD_mapIdx (fun j => f (j + 1)) l i d (by simpa using h)

lemma length_copySamples (offset : ℕ) (wave : List ℝ) (start : ℤ)
    (frameLen padded : ℕ) :
    (copySamples offset wave start frameLen padded).length = padded := by
  simp [copySamples]

lemma length_ditherStage (d : ℚ) (rng : ℕ → ℝ) (frameLen : ℕ) (xs : List ℝ) :
    (ditherStage d rng frameLen xs).length = xs.length := by
  unfold ditherStage; split <;> simp

lemma length_dcStage (remove : Bool) (frameLen : ℕ) (xs : List ℝ) :
    (dcStage remove frameLen xs).length = xs.length := by
  unfold dcStage; split <;> simp

lemma window_size_le_padded (o : FrameOptions) :
    window_size o ≤ padded_window_size o := by
  unfold padded_window_size nextPowerOfTwo
  split
  · exact Nat.le_pow_clog one_lt_two _
  · exact le_rfl

/-- C3 (amended): for every successful `extract_window` call with a nonzero
pre-emphasis coefficient (no window function, so the returned buffer is the
pre-window signal), with `pre` the buffer after the copy / dither /
DC-removal stages: every interior sample `1 ≤ i < frame_length` is updated
right-to-left as `x[i] -= coeff * x[i-1]` using the pre-update predecessor,
and `x[0]` is always updated as `x[0] -= coeff * x[0]` using the frame's
own first sample — the sample preceding the frame is never consulted. -/
theorem extract_window_preemph (rng : ℕ → ℝ) (offset : ℕ) (wave : List ℝ)
    (f : ℕ) (o : FrameOptions) (out : List ℝ) (e : ℝ) (pre : List ℝ)
    (hp : o.preemph_coeff ≠ 0)
    (hpre : pre = extractPre rng offset wave f o)
    (hok : extract_window rng offset wave f o none = some (out, e)) :
    out.getD 0 0 = pre.getD 0 0 - (o.preemph_coeff : ℝ) * pre.getD 0 0 ∧
      ∀ i, 1 ≤ i → i < window_size o →
        out.getD i 0 = pre.getD i 0 - (o.preemph_coeff : ℝ) * pre.getD (i - 1) 0 := by
  have hlenpre : pre.length = padded_window_size o := by
    rw [hpre, extractPre, length_dcStage, length_ditherStage, length_copySamples]
  have hout : out = preemphStage (o.preemph_coeff : ℝ) (window_size o) pre := by
    rw [extract_window] at hok
    split at hok
    · exact Option.noConfusion hok
    · split at hok
      · exact Option.noConfusion hok
      · simp only [Option.some.injEq, Prod.mk.injEq] at hok
        rw [← hok.1, extractBuf, extractSignal, if_pos hp, hpre]
  constructor
  · by_cases h0 : 0 < pre.length
    · rw [hout, preemphStage, getD_mapIdx _ _ _ _ h0]
      simp
    · have : pre.length = 0 := by omega
      have hnil : pre = [] := List.length_eq_zero.mp this
      rw [hout, hnil]
      simp [preemphStage]
  · intro i h1 h2
    have hi : i < pre.length := by
      have := window_size_le_padded o
      omega
    rw [hout, preemphStage, getD_mapIdx _ _ _ _ hi]
    have : ¬ i = 0 := by omega
    simp [this, h2]

/-- The snip-edges configuration of the C3 instance: 1 kHz, shift 2 ms,
length 3 ms, pre-emphasis `1/2`, everything else off, no padding. -/
def cfgPre : FrameOptions :=
  ⟨1000, 2, 3, 0, 1 / 2, false, "rectangular", false, 21 / 50, true⟩

lemma cfgPre_ws : window_size cfgPre = 3 := by
  norm_num [window_size, cfgPre]; decide

lemma cfgPre_shift : window_shift cfgPre = 2 := by
  norm_num [window_shift, cfgPre]; decide

lemma cfgPre_padded : padded_window_size cfgPre = 3 := by
  rw [padded_window_size, if_neg (by decide : ¬ cfgPre.round_to_power_of_two = true), cfgPre_ws]

lemma cfgPre_fsf : first_sample_of_frame 1 cfgPre = 2 := by
  rw [first_sample_of_frame, if_pos (show cfgPre.snip_edges = true from rfl), cfgPre_shift]
  norm_num

/-- Frame 1 of `[1,2,4,8,16]` under `cfgPre`: the copy stage yields
`[4,8,16]` (samples 2..4), pre-emphasis turns it into `[2,6,12]`, and the
raw energy is `4+36+144 = 184`. -/
lemma extract_pre_stage_eval :
    extractPre (fun _ => 0) 0 ([1, 2, 4, 8, 16] : List ℝ) 1 cfgPre = [4, 8, 16] := by
  have hcopy : copySamples 0 ([1, 2, 4, 8, 16] : List ℝ) 2 3 3 = [4, 8, 16] := by
    rw [copySamples, show List.range 3 = [0, 1, 2] from rfl]
    norm_num [reflectIdx, reflectFuel, List.getD]
    refine ⟨rfl, rfl, rfl⟩
  rw [extractPre, cfgPre_ws, cfgPre_padded, cfgPre_fsf, hcopy]
  rw [show ditherStage cfgPre.dither (fun _ => 0) 3 [4, 8, 16] = [4, 8, 16] by
    simp [ditherStage, cfgPre]]
  simp [dcStage, cfgPre]

lemma extract_signal_eval :
    extractSignal (fun _ => 0) 0 ([1, 2, 4, 8, 16] : List ℝ) 1 cfgPre = [2, 6, 12] := by
  rw [extractSignal, if_pos (by norm_num [cfgPre] : cfgPre.preemph_coeff ≠ 0),
    extract_pre_stage_eval, cfgPre_ws]
  simp only [preemphStage, List.mapIdx_cons, List.mapIdx_nil]
  norm_num [cfgPre, List.getD]

lemma extract_pre_eval :
    extract_window (fun _ => 0) 0 ([1, 2, 4, 8, 16] : List ℝ) 1 cfgPre none =
      some ([2, 6, 12], Real.log 184) := by
  rw [extract_window, if_neg, if_neg]
  · rw [extractBuf, extractEnergy, extract_signal_eval, cfgPre_ws]
    have he : rawLogEnergy 3 ([2, 6, 12] : List ℝ) = Real.log 184 := by
      rw [rawLogEnergy]
      norm_num
    rw [he]
  · norm_num [cfgPre]
  · rw [cfgPre_fsf, cfgPre_ws]
    norm_num

/-- C3 counterexample: for frame 1 of `[1,2,4,8,16]` under `cfgPre` the
sample preceding the frame (`wave[1] = 2`) is available, and the frame's
first sample is `4`; the claim predicts `x[0] = 4 - (1/2)·2 = 3`, but
`extract_window` produces `x[0] = 4 - (1/2)·4 = 2`. -/
theorem extract_window_preemph_counterexample :
    ((extract_window (fun _ => 0) 0 ([1, 2, 4, 8, 16] : List ℝ) 1 cfgPre none).map
        fun p => p.1.getD 0 0) = some 2 ∧
      (2 : ℝ) ≠ 4 - (1 / 2 : ℝ) * 2 := by
  rw [extract_pre_eval]
  norm_num

/-- C3 witness: the amended theorem applied to the concrete extraction. -/
theorem extract_window_preemph_witness :
    (cfgPre.preemph_coeff ≠ 0) ∧
      (([2, 6, 12] : List ℝ).getD 0 0 =
        (extractPre (fun _ => 0) 0 ([1, 2, 4, 8, 16] : List ℝ) 1 cfgPre).getD 0 0 -
          (cfgPre.preemph_coeff : ℝ) *
            (extractPre (fun _ => 0) 0 ([1, 2, 4, 8, 16] : List ℝ) 1 cfgPre).getD 0 0) :=
  ⟨by norm_num [cfgPre],
    (extract_window_preemph (fun _ => 0) 0 [1, 2, 4, 8, 16] 1 cfgPre
      [2, 6, 12] (Real.log 184) _ (by norm_num [cfgPre]) rfl extract_pre_eval).1⟩

/-! ## C7: MFCC HTK-compat rotation -/

lemma getD_append_left {α : Type} (l₁ l₂ : List α) (i : ℕ) (d : α)
    (h : i < l₁.length) : (l₁ ++ l₂).getD i d = l₁.getD i d := by
  simp [List.getD_eq_getElem?_getD, List.getElem?_append, h]

lemma getD_append_right {α : Type} (l₁ l₂ : List α) (i : ℕ) (d : α)
    (h : l₁.length ≤ i) : (l₁ ++ l₂).getD i d = l₂.getD (i - l₁.length) d := by
  simp [List.getD_eq_getElem?_getD, List.getElem?_append, Nat.not_lt.mpr h]

/-- Toggling only `htk_compat` does not change the pre-HTK cepstral
vector (no step before the final block reads the flag). -/
lemma mfccPreHtk_htk_invariant (o : MfccOptions) (frame : List ℝ) (rawE : ℝ) :
    mfccPreHtk { o with htk_compat := true } frame rawE = mfccPreHtk o frame rawE :=
  rfl

lemma length_mfccPreHtk (o : MfccOptions) (frame : List ℝ) (rawE : ℝ) :
    (mfccPreHtk o frame rawE).length = o.num_ceps := by
  rw [mfccPreHtk]
  split <;> split <;> simp

/-- C7: for `num_ceps = 13`, the MFCC output with HTK-compat enabled is the
non-HTK output shifted left by one position, with the original coefficient
0 moved to index 12 — rescaled by `√2` exactly when energy-appending is
disabled. -/
theorem mfcc_htk_rotation (o : MfccOptions) (frame : List ℝ) (rawE : ℝ)
    (h13 : o.num_ceps = 13) (hhtk : o.htk_compat = false) :
    (∀ i, i < 12 →
        (mfccCompute { o with htk_compat := true } frame rawE).getD i 0 =
          (mfccCompute o frame rawE).getD (i + 1) 0) ∧
      (mfccCompute { o with htk_compat := true } frame rawE).getD 12 0 =
        (if o.use_energy then (1 : ℝ) else Real.sqrt 2) *
          (mfccCompute o frame rawE).getD 0 0 := by
  have hbase : mfccCompute o frame rawE = mfccPreHtk o frame rawE := by
    rw [mfccCompute, if_neg (by simp [hhtk])]
  have hlen : (mfccPreHtk o frame rawE).length = 13 := by
    rw [length_mfccPreHtk, h13]
  obtain ⟨x, rest, hcons⟩ : ∃ x rest, mfccPreHtk o frame rawE = x :: rest := by
    cases hF : mfccPreHtk o frame rawE with
    | nil => rw [hF] at hlen; simp at hlen
    | cons x rest => exact ⟨x, rest, rfl⟩
  have hrest : rest.length = 12 := by
    rw [hcons] at hlen; simpa using hlen
  have hH : mfccCompute { o with htk_compat := true } frame rawE =
      rest ++ [if o.use_energy then x else Real.sqrt 2 * x] := by
    rw [mfccCompute, if_pos rfl, mfccPreHtk_htk_invariant, hcons]
  constructor
  · intro i hi
    rw [hH, hbase, hcons, getD_append_left _ _ _ _ (by omega), List.getD_cons_succ]
  · rw [hH, hbase, hcons, getD_append_right _ _ _ _ (by omega), hrest]
    simp only [Nat.sub_self, List.getD_cons_zero]
    by_cases hE : o.use_energy <;> simp [hE]

/-- A concrete 13-cepstra MFCC configuration for the C7 witness. -/
def mfccCfg13 : MfccOptions :=
  ⟨cfgSnip16k, melDefault, 13, 22, true, true, false, 0⟩

/-- C7 witness: the rotation theorem at a concrete configuration and
(zero) frame. -/
theorem mfcc_htk_rotation_witness :
    mfccCfg13.num_ceps = 13 ∧ mfccCfg13.htk_compat = false ∧
      (mfccCompute { mfccCfg13 with htk_compat := true } [] 0).getD 3 0 =
        (mfccCompute mfccCfg13 [] 0).getD 4 0 :=
  ⟨rfl, rfl, (mfcc_htk_rotation mfccCfg13 [] 0 rfl rfl).1 3 (by norm_num)⟩

/-! ## C4: mel filterbank weight invariants -/

lemma triangleWeight_pos_iff (l c r mel : ℝ) :
    0 < triangleWeight l c r mel ↔ (l < mel ∧ mel < r) := by
  unfold triangleWeight
  constructor
  · intro h
    by_contra hin
    rw [if_neg hin] at h
    exact lt_irrefl 0 h
  · intro hin
    rw [if_pos hin]
    by_cases hc : mel ≤ c
    · rw [if_pos hc]
      exact div_pos (by linarith [hin.1]) (by linarith [hin.1])
    · rw [if_neg hc]
      push_neg at hc
      exact div_pos (by linarith [hin.2]) (by linarith [hin.2])

lemma triangleWeight_le_one (l c r mel : ℝ) (h : 0 < triangleWeight l c r mel) :
    triangleWeight l c r mel ≤ 1 := by
  have hin := (triangleWeight_pos_iff l c r mel).mp h
  unfold triangleWeight at *
  rw [if_pos hin] at h ⊢
  by_cases hc : mel ≤ c
  · rw [if_pos hc] at h ⊢
    have hden : 0 < c - l := by
      rcases (div_pos_iff).mp h with ⟨_, hb⟩ | ⟨ha, _⟩
      · exact hb
      · linarith [hin.1]
    rw [div_le_one hden]
    linarith
  · rw [if_neg hc] at h ⊢
    push_neg at hc
    have hden : 0 < r - c := by
      rcases (div_pos_iff).mp h with ⟨_, hb⟩ | ⟨ha, _⟩
      · exact hb
      · linarith [hin.2]
    rw [div_le_one hden]
    linarith

lemma melWeight_ne_zero_iff (m : MelOptions) (f : FrameOptions) (warp : ℝ)
    (bin i : ℕ) :
    melWeight m f warp bin i ≠ 0 ↔
      ((melBinBoundaries m f warp bin).1 <
          mel_scale ((f.samp_freq : ℝ) / (padded_window_size f : ℝ) * (i : ℝ)) ∧
        mel_scale ((f.samp_freq : ℝ) / (padded_window_size f : ℝ) * (i : ℝ)) <
          (melBinBoundaries m f warp bin).2.2) := by
  rw [← triangleWeight_pos_iff _ (melBinBoundaries m f warp bin).2.1]
  unfold melWeight
  constructor
  · intro h
    by_contra hpos
    rw [if_neg hpos] at h
    exact h rfl
  · intro h
    rw [if_pos h]
    exact ne_of_gt h

lemma mel_scale_mono (x y : ℝ) (hx : 0 ≤ x) (hxy : x ≤ y) :
    mel_scale x ≤ mel_scale y := by
  unfold mel_scale
  have h1 : (0 : ℝ) < 1 + x / 700 := by positivity
  have h2 : 1 + x / 700 ≤ 1 + y / 700 := by linarith
  have := Real.log_le_log h1 h2
  linarith

/-- C4 (amended): under the mel validity precondition every stored
filterbank weight lies in `[0, 1]`, and each row's nonzero columns form one
contiguous interval of spectral-bin indices.  (A row may be *empty*: the
claim's non-emptiness clause fails, see the counterexample.) -/
theorem mel_weights_bounds_and_contiguity (m : MelOptions) (f : FrameOptions)
    (warp : ℝ) (h : melValidSpec m f) :
    (∀ bin i, 0 ≤ melWeight m f warp bin i ∧ melWeight m f warp bin i ≤ 1) ∧
      (∀ bin i₁ i₂ i₃, i₁ ≤ i₂ → i₂ ≤ i₃ → i₃ < numFftBins f →
        melWeight m f warp bin i₁ ≠ 0 → melWeight m f warp bin i₃ ≠ 0 →
        melWeight m f warp bin i₂ ≠ 0) := by
  have hsamp : (0 : ℝ) < (f.samp_freq : ℝ) := by
    have h1 : (0 : ℚ) ≤ m.low_freq := h.1
    have h2 : m.low_freq < (1 / 2 : ℚ) * f.samp_freq := h.2.1
    have : (0 : ℚ) < f.samp_freq := by linarith
    exact_mod_cast this
  have hwidth : (0 : ℝ) ≤ (f.samp_freq : ℝ) / (padded_window_size f : ℝ) := by
    positivity
  constructor
  · intro bin i
    unfold melWeight
    by_cases hpos : 0 < triangleWeight (melBinBoundaries m f warp bin).1
        (melBinBoundaries m f warp bin).2.1 (melBinBoundaries m f warp bin).2.2
        (mel_scale ((f.samp_freq : ℝ) / (padded_window_size f : ℝ) * (i : ℝ)))
    · rw [if_pos hpos]
      exact ⟨le_of_lt hpos, triangleWeight_le_one _ _ _ _ hpos⟩
    · rw [if_neg hpos]
      exact ⟨le_rfl, by norm_num⟩
  · intro bin i₁ i₂ i₃ h12 h23 _ h1 h3
    rw [melWeight_ne_zero_iff] at h1 h3 ⊢
    have hm12 : mel_scale ((f.samp_freq : ℝ) / (padded_window_size f : ℝ) * (i₁ : ℝ)) ≤
        mel_scale ((f.samp_freq : ℝ) / (padded_window_size f : ℝ) * (i₂ : ℝ)) := by
      apply mel_scale_mono
      · positivity
      · have : (i₁ : ℝ) ≤ (i₂ : ℝ) := by exact_mod_cast h12
        exact mul_le_mul_of_nonneg_left this hwidth
    have hm23 : mel_scale ((f.samp_freq : ℝ) / (padded_window_size f : ℝ) * (i₂ : ℝ)) ≤
        mel_scale ((f.samp_freq : ℝ) / (padded_window_size f : ℝ) * (i₃ : ℝ)) := by
      apply mel_scale_mono
      · positivity
      · have : (i₂ : ℝ) ≤ (i₃ : ℝ) := by exact_mod_cast h23
        exact mul_le_mul_of_nonneg_left this hwidth
    exact ⟨lt_of_lt_of_le h1.1 hm12, lt_of_le_of_lt hm23 h3.2⟩

/-- C4 witness: the amended theorem at the default mel configuration. -/
theorem mel_weights_bounds_and_contiguity_witness :
    melValidSpec melDefault cfgSnip16k ∧
      (0 ≤ melWeight melDefault cfgSnip16k 1 0 0 ∧
        melWeight melDefault cfgSnip16k 1 0 0 ≤ 1) := by
  have hvalid : melValidSpec melDefault cfgSnip16k := by
    norm_num [melValidSpec, melHighFreq, melDefault, cfgSnip16k]
  exact ⟨hvalid, (mel_weights_bounds_and_contiguity melDefault cfgSnip16k 1 hvalid).1 0 0⟩

/-- A valid mel configuration with *zero* spectral bins: 1 kHz, 1 ms frame,
no padding, so `padded_window_size = 1` and `num_fft_bins = 1 / 2 = 0`. -/
def frameTiny : FrameOptions :=
  ⟨1000, 1, 1, 0, 0, false, "hanning", false, 21 / 50, true⟩

lemma numFftBins_frameTiny : numFftBins frameTiny = 0 := by
  have hws : window_size frameTiny = 1 := by
    norm_num [window_size, frameTiny]
  rw [numFftBins, padded_window_size,
    if_neg (by decide : ¬ frameTiny.round_to_power_of_two = true), hws]

/-- C4 counterexample: a configuration satisfying the validity
precondition whose mel rows have *no* nonzero weight at all (there are no
spectral bins), refuting the claim's "every row has at least one nonzero
weight". -/
theorem mel_row_empty_counterexample :
    melValidSpec melDefault frameTiny ∧
      ¬ ∃ i, i < numFftBins frameTiny ∧ melWeight melDefault frameTiny 1 0 i ≠ 0 := by
  constructor
  · norm_num [melValidSpec, melHighFreq, melDefault, frameTiny]
  · rintro ⟨i, hi, -⟩
    rw [numFftBins_frameTiny] at hi
    omega

/-! ## C1: streaming/batch equivalence — counterexample (non-snip) -/

noncomputable def rng0 : ℕ → ℝ := fun _ => 0

noncomputable def wave6 : List ℝ := [1, 2, 3, 4, 5, 6]

lemma nsws : window_size cfgNonSnip = 3 := by
  norm_num [window_size, cfgNonSnip]; decide

lemma nsshift : window_shift cfgNonSnip = 4 := by
  norm_num [window_shift, cfgNonSnip]; decide

lemma nspad : padded_window_size cfgNonSnip = 3 := by
  rw [padded_window_size, if_neg (by decide : ¬ cfgNonSnip.round_to_power_of_two = true), nsws]

lemma nssnip : cfgNonSnip.snip_edges = false := rfl

lemma nsfsf0 : first_sample_of_frame 0 cfgNonSnip = 1 := by
  rw [first_sample_of_frame, if_neg (by simp [nssnip]), nsshift, nsws]
  decide

lemma nsfsf1 : first_sample_of_frame 1 cfgNonSnip = 5 := by
  rw [first_sample_of_frame, if_neg (by simp [nssnip]), nsshift, nsws]
  decide

lemma nsfsf2 : first_sample_of_frame 2 cfgNonSnip = 9 := by
  rw [first_sample_of_frame, if_neg (by simp [nssnip]), nsshift, nsws]
  decide

lemma nsnf4 : num_frames 4 cfgNonSnip false = 1 := by
  rw [num_frames, if_neg (by simp [nssnip]), nsshift]
  simp only [if_neg (Bool.false_ne_true)]
  norm_num
  simp [numFramesAdjust, nsfsf0, nsws]

lemma nsnf6f : num_frames 6 cfgNonSnip false = 1 := by
  rw [num_frames, if_neg (by simp [nssnip]), nsshift]
  simp only [if_neg (Bool.false_ne_true)]
  norm_num
  simp [numFramesAdjust, nsfsf0, nsfsf1, nsws]

lemma nsnf6t : num_frames 6 cfgNonSnip true = 2 := by
  rw [num_frames, if_neg (by simp [nssnip]), nsshift]
  simp only [if_pos rfl]
  norm_num
  decide

lemma nswin : windowNew cfgNonSnip = some [(1 : ℝ), 1, 1] := by
  rw [windowNew, nsws, if_neg (by norm_num : ¬(3 = 0))]
  have h := optionMapList_eq_some_of_forall (windowCoeff cfgNonSnip 3)
    (fun _ => (1 : ℝ)) (List.range 3)
    (fun i _ => by simp [windowCoeff, show cfgNonSnip.window_type = "rectangular" from rfl])
  rw [h]
  rfl

noncomputable def wave4 : List ℝ := [1, 2, 3, 4]

lemma ns_copy_A0 : copySamples 0 wave4 1 3 3 = [2, 3, 4] := by
  rw [copySamples, show List.range 3 = [0, 1, 2] from rfl]
  norm_num [reflectIdx, reflectFuel, reflectStep, List.getD, wave4]
  all_goals (and_intros <;> rfl)

lemma ns_copy_B0 : copySamples 0 wave6 1 3 3 = [2, 3, 4] := by
  rw [copySamples, show List.range 3 = [0, 1, 2] from rfl]
  norm_num [reflectIdx, reflectFuel, reflectStep, List.getD, wave6]
  all_goals (and_intros <;> rfl)

lemma ns_copy_B1 : copySamples 5 [(6 : ℝ)] 5 3 3 = [6, 6, 6] := by
  rw [copySamples, show List.range 3 = [0, 1, 2] from rfl]
  norm_num [reflectIdx, reflectFuel, reflectStep, List.getD]

lemma ns_copy_A1 : copySamples 0 wave6 5 3 3 = [6, 6, 5] := by
  have r5 : reflectIdx 6 5 = 5 := by decide
  have r6 : reflectIdx 6 6 = 5 := by decide
  have r7 : reflectIdx 6 7 = 4 := by decide
  rw [copySamples, show List.range 3 = [0, 1, 2] from rfl]
  have hlen : wave6.length = 6 := by simp [wave6]
  simp only [List.map_cons, List.map_nil, hlen]
  norm_num [r5, r6, r7, List.getD, wave6]
  all_goals (and_intros <;> rfl)

lemma ns_stages (xs : List ℝ) :
    dcStage cfgNonSnip.remove_dc_offset 3 (ditherStage cfgNonSnip.dither rng0 3 xs) = xs := by
  rw [show cfgNonSnip.dither = 0 from rfl, show cfgNonSnip.remove_dc_offset = false from rfl]
  simp [ditherStage, dcStage]

lemma ns_sig_A0 : extractSignal rng0 0 wave4 0 cfgNonSnip = [2, 3, 4] := by
  rw [extractSignal, if_neg (by norm_num [cfgNonSnip]), extractPre, nsws, nspad, nsfsf0,
    ns_stages, ns_copy_A0]

lemma ns_sig_B0 : extractSignal rng0 0 wave6 0 cfgNonSnip = [2, 3, 4] := by
  rw [extractSignal, if_neg (by norm_num [cfgNonSnip]), extractPre, nsws, nspad, nsfsf0,
    ns_stages, ns_copy_B0]

lemma ns_sig_B1 : extractSignal rng0 5 [(6 : ℝ)] 1 cfgNonSnip = [6, 6, 6] := by
  rw [extractSignal, if_neg (by norm_num [cfgNonSnip]), extractPre, nsws, nspad, nsfsf1,
    ns_stages, ns_copy_B1]

lemma ns_sig_A1 : extractSignal rng0 0 wave6 1 cfgNonSnip = [6, 6, 5] := by
  rw [extractSignal, if_neg (by norm_num [cfgNonSnip]), extractPre, nsws, nspad, nsfsf1,
    ns_stages, ns_copy_A1]

lemma ns_buf_of_sig (offset : ℕ) (wave sig : List ℝ) (f : ℕ)
    (hsig : extractSignal rng0 offset wave f cfgNonSnip = sig) :
    extractBuf rng0 offset wave f cfgNonSnip (some [(1 : ℝ), 1, 1]) =
      windowApplyList [(1 : ℝ), 1, 1] (sig.take 3) ++ sig.drop 3 := by
  rw [extractBuf]
  rw [hsig, nsws]

lemma ns_ext_A0 :
    extract_window rng0 0 wave4 0 cfgNonSnip (some [(1 : ℝ), 1, 1]) =
      some ([2, 3, 4], Real.log 29) := by
  rw [extract_window, if_neg (by simp [nssnip]), if_neg (by simp)]
  rw [ns_buf_of_sig 0 wave4 [2, 3, 4] 0 ns_sig_A0]
  rw [extractEnergy, ns_sig_A0, nsws]
  norm_num [windowApplyList, rawLogEnergy]

lemma ns_ext_B0 :
    extract_window rng0 0 wave6 0 cfgNonSnip (some [(1 : ℝ), 1, 1]) =
      some ([2, 3, 4], Real.log 29) := by
  rw [extract_window, if_neg (by simp [nssnip]), if_neg (by simp)]
  rw [ns_buf_of_sig 0 wave6 [2, 3, 4] 0 ns_sig_B0]
  rw [extractEnergy, ns_sig_B0, nsws]
  norm_num [windowApplyList, rawLogEnergy]

lemma ns_ext_B1 :
    extract_window rng0 5 [(6 : ℝ)] 1 cfgNonSnip (some [(1 : ℝ), 1, 1]) =
      some ([6, 6, 6], Real.log 108) := by
  rw [extract_window, if_neg (by simp [nssnip]), if_neg (by simp [nsfsf1])]
  rw [ns_buf_of_sig 5 [(6 : ℝ)] [6, 6, 6] 1 ns_sig_B1]
  rw [extractEnergy, ns_sig_B1, nsws]
  norm_num [windowApplyList, rawLogEnergy]

lemma ns_ext_A1 :
    extract_window rng0 0 wave6 1 cfgNonSnip (some [(1 : ℝ), 1, 1]) =
      some ([6, 6, 5], Real.log 97) := by
  rw [extract_window, if_neg (by simp [nssnip]), if_neg (by simp)]
  rw [ns_buf_of_sig 0 wave6 [6, 6, 5] 1 ns_sig_A1]
  rw [extractEnergy, ns_sig_A1, nsws]
  norm_num [windowApplyList, rawLogEnergy]

lemma computeNew_noop (cf : List ℝ → ℝ → List ℝ) (o : FrameOptions) (rng : ℕ → ℝ)
    (s : OnlineState) (hle : readyFrames o s ≤ s.features.length) :
    computeNew cf o rng s = some s := by
  rw [computeNew, if_pos hle]

lemma computeNew_eval (cf : List ℝ → ℝ → List ℝ) (o : FrameOptions) (rng : ℕ → ℝ)
    (s : OnlineState) (k : ℕ) (feats : List (List ℝ)) (d : ℤ)
    (hk : readyFrames o s = k) (hgt : s.features.length < k)
    (hmap : optionMapList (fun f =>
        (extract_window rng s.waveform_offset s.waveform f o s.window_function).map
          fun p => cf p.1 p.2)
        (List.range' s.features.length (k - s.features.length)) = some feats)
    (hd : gcDiscard o s = d) :
    computeNew cf o rng s =
      if 0 < d ∧ d ≤ (s.waveform.length : ℤ) then
        some { s with features := s.features ++ feats,
                      waveform := s.waveform.drop d.toNat,
                      waveform_offset := s.waveform_offset + d.toNat }
      else some { s with features := s.features ++ feats } := by
  rw [computeNew, hk, if_neg (by omega), hmap, hd]

lemma ns_stepB1 :
    acceptWaveform (fbankCompute fbankNonSnip) cfgNonSnip rng0 1000 wave6
        (onlineNew cfgNonSnip) =
      some (⟨[6], 5, false,
        [fbankCompute fbankNonSnip [2, 3, 4] (Real.log 29)],
        some [(1 : ℝ), 1, 1]⟩ : OnlineState) := by
  have hlen6 : wave6.length = 6 := by simp [wave6]
  have hs : ({ onlineNew cfgNonSnip with
      waveform := (onlineNew cfgNonSnip).waveform ++ wave6 } : OnlineState) =
      (⟨wave6, 0, false, [], some [(1 : ℝ), 1, 1]⟩ : OnlineState) := by
    simp [onlineNew, nswin]
  have hready : readyFrames cfgNonSnip
      (⟨wave6, 0, false, [], some [(1 : ℝ), 1, 1]⟩ : OnlineState) = 1 := by
    rw [readyFrames]
    simp only [hlen6, Nat.zero_add]
    exact nsnf6f
  have hgc : gcDiscard cfgNonSnip
      (⟨wave6, 0, false, [], some [(1 : ℝ), 1, 1]⟩ : OnlineState) = 5 := by
    rw [gcDiscard, hready, nsfsf1]
    norm_num
  have hmap : optionMapList (fun f =>
      (extract_window rng0 0 wave6 f cfgNonSnip (some [(1 : ℝ), 1, 1])).map
        fun p => fbankCompute fbankNonSnip p.1 p.2) (List.range' 0 1) =
      some [fbankCompute fbankNonSnip [2, 3, 4] (Real.log 29)] := by
    rw [show List.range' 0 1 = [0] from rfl]
    simp [optionMapList, ns_ext_B0]
  rw [acceptWaveform, if_neg (by norm_num [cfgNonSnip]), hs,
    computeNew_eval _ _ _ _ 1 [fbankCompute fbankNonSnip [2, 3, 4] (Real.log 29)] 5
      hready (by simp) hmap hgc,
    if_pos (by refine ⟨by norm_num, ?_⟩; rw [hlen6]; norm_num)]
  simp [wave6]

lemma ns_stepB2 :
    inputFinished (fbankCompute fbankNonSnip) cfgNonSnip rng0
        (⟨[6], 5, false,
          [fbankCompute fbankNonSnip [2, 3, 4] (Real.log 29)],
          some [(1 : ℝ), 1, 1]⟩ : OnlineState) =
      some (⟨[6], 5, true,
        [fbankCompute fbankNonSnip [2, 3, 4] (Real.log 29),
         fbankCompute fbankNonSnip [6, 6, 6] (Real.log 108)],
        some [(1 : ℝ), 1, 1]⟩ : OnlineState) := by
  have hready : readyFrames cfgNonSnip
      (⟨[6], 5, true,
        [fbankCompute fbankNonSnip [2, 3, 4] (Real.log 29)],
        some [(1 : ℝ), 1, 1]⟩ : OnlineState) = 2 := by
    rw [readyFrames]
    simp only [List.length_singleton]
    exact nsnf6t
  have hgc : gcDiscard cfgNonSnip
      (⟨[6], 5, true,
        [fbankCompute fbankNonSnip [2, 3, 4] (Real.log 29)],
        some [(1 : ℝ), 1, 1]⟩ : OnlineState) = 4 := by
    rw [gcDiscard, hready, nsfsf2]
    norm_num
  have hmap : optionMapList (fun f =>
      (extract_window rng0 5 [(6 : ℝ)] f cfgNonSnip (some [(1 : ℝ), 1, 1])).map
        fun p => fbankCompute fbankNonSnip p.1 p.2) (List.range' 1 1) =
      some [fbankCompute fbankNonSnip [6, 6, 6] (Real.log 108)] := by
    rw [show List.range' 1 1 = [1] from rfl]
    simp [optionMapList, ns_ext_B1]
  rw [inputFinished]
  rw [show ({ (⟨[6], 5, false,
        [fbankCompute fbankNonSnip [2, 3, 4] (Real.log 29)],
        some [(1 : ℝ), 1, 1]⟩ : OnlineState) with input_finished := true } : OnlineState) =
      (⟨[6], 5, true,
        [fbankCompute fbankNonSnip [2, 3, 4] (Real.log 29)],
        some [(1 : ℝ), 1, 1]⟩ : OnlineState) from rfl]
  rw [computeNew_eval _ _ _ _ 2 [fbankCompute fbankNonSnip [6, 6, 6] (Real.log 108)] 4
    hready (by simp) hmap hgc,
    if_neg (by norm_num)]
  rfl

lemma ns_stepA1 :
    acceptWaveform (fbankCompute fbankNonSnip) cfgNonSnip rng0 1000 wave4
        (onlineNew cfgNonSnip) =
      some (⟨wave4, 0, false,
        [fbankCompute fbankNonSnip [2, 3, 4] (Real.log 29)],
        some [(1 : ℝ), 1, 1]⟩ : OnlineState) := by
  have hlen4 : wave4.length = 4 := by simp [wave4]
  have hs : ({ onlineNew cfgNonSnip with
      waveform := (onlineNew cfgNonSnip).waveform ++ wave4 } : OnlineState) =
      (⟨wave4, 0, false, [], some [(1 : ℝ), 1, 1]⟩ : OnlineState) := by
    simp [onlineNew, nswin]
  have hready : readyFrames cfgNonSnip
      (⟨wave4, 0, false, [], some [(1 : ℝ), 1, 1]⟩ : OnlineState) = 1 := by
    rw [readyFrames]
    simp only [hlen4, Nat.zero_add]
    exact nsnf4
  have hgc : gcDiscard cfgNonSnip
      (⟨wave4, 0, false, [], some [(1 : ℝ), 1, 1]⟩ : OnlineState) = 5 := by
    rw [gcDiscard, hready, nsfsf1]
    norm_num
  have hmap : optionMapList (fun f =>
      (extract_window rng0 0 wave4 f cfgNonSnip (some [(1 : ℝ), 1, 1])).map
        fun p => fbankCompute fbankNonSnip p.1 p.2) (List.range' 0 1) =
      some [fbankCompute fbankNonSnip [2, 3, 4] (Real.log 29)] := by
    rw [show List.range' 0 1 = [0] from rfl]
    simp [optionMapList, ns_ext_A0]
  rw [acceptWaveform, if_neg (by norm_num [cfgNonSnip]), hs,
    computeNew_eval _ _ _ _ 1 [fbankCompute fbankNonSnip [2, 3, 4] (Real.log 29)] 5
      hready (by simp) hmap hgc,
    if_neg (by rw [hlen4]; norm_num)]
  rfl

lemma ns_stepA2 :
    acceptWaveform (fbankCompute fbankNonSnip) cfgNonSnip rng0 1000 [(5 : ℝ), 6]
        (⟨wave4, 0, false,
          [fbankCompute fbankNonSnip [2, 3, 4] (Real.log 29)],
          some [(1 : ℝ), 1, 1]⟩ : OnlineState) =
      some (⟨wave6, 0, false,
        [fbankCompute fbankNonSnip [2, 3, 4] (Real.log 29)],
        some [(1 : ℝ), 1, 1]⟩ : OnlineState) := by
  have hlen6 : wave6.length = 6 := by simp [wave6]
  have happ : wave4 ++ [(5 : ℝ), 6] = wave6 := by simp [wave4, wave6]
  have hs : ({ (⟨wave4, 0, false,
      [fbankCompute fbankNonSnip [2, 3, 4] (Real.log 29)],
      some [(1 : ℝ), 1, 1]⟩ : OnlineState) with
      waveform := wave4 ++ [(5 : ℝ), 6] } : OnlineState) =
      (⟨wave6, 0, false,
        [fbankCompute fbankNonSnip [2, 3, 4] (Real.log 29)],
        some [(1 : ℝ), 1, 1]⟩ : OnlineState) := by
    rw [happ]
  have hready : readyFrames cfgNonSnip
      (⟨wave6, 0, false,
        [fbankCompute fbankNonSnip [2, 3, 4] (Real.log 29)],
        some [(1 : ℝ), 1, 1]⟩ : OnlineState) = 1 := by
    rw [readyFrames]
    simp only [hlen6, Nat.zero_add]
    exact nsnf6f
  rw [acceptWaveform, if_neg (by norm_num [cfgNonSnip]), hs,
    computeNew_noop _ _ _ _ (by rw [hready]; simp)]

lemma ns_stepA3 :
    inputFinished (fbankCompute fbankNonSnip) cfgNonSnip rng0
        (⟨wave6, 0, false,
          [fbankCompute fbankNonSnip [2, 3, 4] (Real.log 29)],
          some [(1 : ℝ), 1, 1]⟩ : OnlineState) =
      some (⟨wave6, 0, true,
        [fbankCompute fbankNonSnip [2, 3, 4] (Real.log 29),
         fbankCompute fbankNonSnip [6, 6, 5] (Real.log 97)],
        some [(1 : ℝ), 1, 1]⟩ : OnlineState) := by
  have hlen6 : wave6.length = 6 := by simp [wave6]
  have hready : readyFrames cfgNonSnip
      (⟨wave6, 0, true,
        [fbankCompute fbankNonSnip [2, 3, 4] (Real.log 29)],
        some [(1 : ℝ), 1, 1]⟩ : OnlineState) = 2 := by
    rw [readyFrames]
    simp only [hlen6, Nat.zero_add]
    exact nsnf6t
  have hgc : gcDiscard cfgNonSnip
      (⟨wave6, 0, true,
        [fbankCompute fbankNonSnip [2, 3, 4] (Real.log 29)],
        some [(1 : ℝ), 1, 1]⟩ : OnlineState) = 9 := by
    rw [gcDiscard, hready, nsfsf2]
    norm_num
  have hmap : optionMapList (fun f =>
      (extract_window rng0 0 wave6 f cfgNonSnip (some [(1 : ℝ), 1, 1])).map
        fun p => fbankCompute fbankNonSnip p.1 p.2) (List.range' 1 1) =
      some [fbankCompute fbankNonSnip [6, 6, 5] (Real.log 97)] := by
    rw [show List.range' 1 1 = [1] from rfl]
    simp [optionMapList, ns_ext_A1]
  rw [inputFinished]
  rw [show ({ (⟨wave6, 0, false,
        [fbankCompute fbankNonSnip [2, 3, 4] (Real.log 29)],
        some [(1 : ℝ), 1, 1]⟩ : OnlineState) with input_finished := true } : OnlineState) =
      (⟨wave6, 0, true,
        [fbankCompute fbankNonSnip [2, 3, 4] (Real.log 29)],
        some [(1 : ℝ), 1, 1]⟩ : OnlineState) from rfl]
  rw [computeNew_eval _ _ _ _ 2 [fbankCompute fbankNonSnip [6, 6, 5] (Real.log 97)] 9
    hready (by simp) hmap hgc,
    if_neg (by rw [hlen6]; norm_num)]
  rfl

lemma runChunks_one (cf : List ℝ → ℝ → List ℝ) (o : FrameOptions) (rng : ℕ → ℝ)
    (rate : ℚ) (c₁ : List ℝ) (s₁ s₂ : OnlineState)
    (h1 : acceptWaveform cf o rng rate c₁ (onlineNew o) = some s₁)
    (h2 : inputFinished cf o rng s₁ = some s₂) :
    runChunks cf o rng rate [c₁] = some s₂ := by
  rw [runChunks]
  simp [List.foldlM_cons, List.foldlM_nil, h1, h2]

lemma runChunks_two (cf : List ℝ → ℝ → List ℝ) (o : FrameOptions) (rng : ℕ → ℝ)
    (rate : ℚ) (c₁ c₂ : List ℝ) (s₁ s₂ s₃ : OnlineState)
    (h1 : acceptWaveform cf o rng rate c₁ (onlineNew o) = some s₁)
    (h2 : acceptWaveform cf o rng rate c₂ s₁ = some s₂)
    (h3 : inputFinished cf o rng s₂ = some s₃) :
    runChunks cf o rng rate [c₁, c₂] = some s₃ := by
  rw [runChunks]
  simp [List.foldlM_cons, List.foldlM_nil, h1, h2, h3]

/-- With energy appended at position 0 (`use_energy`, `raw_energy`, not
HTK-compat, zero energy floor), the first entry of the fbank feature
vector is exactly the supplied raw log-energy. -/
lemma fbankCompute_head (o : FbankOptions) (hE : o.use_energy = true)
    (hH : o.htk_compat = false) (hR : o.raw_energy = true) (hF : o.energy_floor = 0)
    (w : List ℝ) (e : ℝ) : (fbankCompute o w e).getD 0 0 = e := by
  simp [fbankCompute, hE, hH, hR, hF, fbankEnergyIndex, List.replicate]

/-- C1 counterexample: under the non-snip configuration `cfgNonSnip`
(dither disabled) with the fbank computer `fbankNonSnip`, feeding
`[1,2,3,4,5,6]` as two chunks `[1,2,3,4]`, `[5,6]` produces a different
frame 1 than feeding it as a single chunk: the chunked run never
garbage-collects (the discard would exceed the buffered samples), so at
`finish()` frame 1 reflects off the full waveform and reads `[6,6,5]`
(energy 97), while the single-chunk run discards 5 samples after frame 0
and reflects inside the one-sample tail, reading `[6,6,6]` (energy 108);
the appended log-energies `ln 97 ≠ ln 108` make the stored feature vectors
differ. -/
theorem streaming_batch_counterexample :
    (runChunks (fbankCompute fbankNonSnip) cfgNonSnip rng0 1000
        [wave4, [(5 : ℝ), 6]]).map OnlineState.features ≠
      (runChunks (fbankCompute fbankNonSnip) cfgNonSnip rng0 1000
        [wave6]).map OnlineState.features := by
  rw [runChunks_two _ _ _ _ _ _ _ _ _ ns_stepA1 ns_stepA2 ns_stepA3,
    runChunks_one _ _ _ _ _ _ _ ns_stepB1 ns_stepB2]
  simp only [Option.map_some']
  intro heq
  simp only [Option.some.injEq, List.cons.injEq] at heq
  have h1 : fbankCompute fbankNonSnip [6, 6, 5] (Real.log 97) =
      fbankCompute fbankNonSnip [6, 6, 6] (Real.log 108) := heq.2.1
  have h2 := congrArg (fun l => l.getD 0 0) h1
  simp only [fbankCompute_head fbankNonSnip rfl rfl rfl rfl] at h2
  have h97 : (97 : ℝ) = 108 := by
    have e1 := Real.exp_log (by norm_num : (0 : ℝ) < 97)
    have e2 := Real.exp_log (by norm_num : (0 : ℝ) < 108)
    rw [← e1, ← e2, h2]
  norm_num at h97

/-! ## C1 (amended): snip-regime streaming/batch equivalence -/

/-- The feature the offline (whole-waveform, offset 0) computation produces
for frame `f`. -/
noncomputable def batchFeature (cf : List ℝ → ℝ → List ℝ) (o : FrameOptions)
    (rng : ℕ → ℝ) (win : Option (List ℝ)) (wave : List ℝ) (f : ℕ) : List ℝ :=
  ((extract_window rng 0 wave f o win).map fun p => cf p.1 p.2).getD []

lemma num_frames_snip_flush (o : FrameOptions) (hsnip : o.snip_edges = true)
    (n : ℕ) (b b' : Bool) : num_frames n o b = num_frames n o b' := by
  simp [num_frames, hsnip]

lemma num_frames_snip_mono (o : FrameOptions) (hsnip : o.snip_edges = true)
    {n m : ℕ} (h : n ≤ m) : num_frames n o false ≤ num_frames m o false := by
  simp only [num_frames, hsnip, eq_self_iff_true, if_true]
  split
  · exact Nat.zero_le _
  · split
    · omega
    · have := Nat.div_le_div_right (c := window_shift o) (Nat.sub_le_sub_right h (window_size o))
      omega

lemma num_frames_snip_frame_fits (o : FrameOptions) (hsnip : o.snip_edges = true)
    (hshift : 0 < window_shift o) {n f : ℕ} (hf : f < num_frames n o false) :
    f * window_shift o + window_size o ≤ n := by
  simp only [num_frames, hsnip, eq_self_iff_true, if_true] at hf
  split at hf
  · omega
  · have hns : window_size o ≤ n := by omega
    have hle : f ≤ (n - window_size o) / window_shift o := by omega
    have := (Nat.le_div_iff_mul_le hshift).mp hle
    omega

lemma first_sample_snip (o : FrameOptions) (hsnip : o.snip_edges = true) (f : ℕ) :
    first_sample_of_frame f o = (f * window_shift o : ℕ) := by
  rw [first_sample_of_frame, if_pos hsnip]
  push_cast
  ring

lemma reflectIdx_of_inRange (len : ℕ) (idx : ℤ) (h0 : 0 ≤ idx)
    (h1 : idx < (len : ℤ)) : reflectIdx len idx = idx := by
  rw [reflectIdx, reflectFuel, if_neg (by omega)]

/-- Where a frame lies entirely inside the retained samples, the copy stage
reads the same absolute samples from the retained suffix as the offline
copy reads from the whole waveform. -/
lemma copySamples_agree (wave : List ℝ) (n offset : ℕ) (start : ℤ)
    (frameLen padded : ℕ) (hn : n ≤ wave.length) (hoff : (offset : ℤ) ≤ start)
    (hend : start + (frameLen : ℤ) ≤ (n : ℤ)) :
    copySamples offset ((wave.take n).drop offset) start frameLen padded =
      copySamples 0 wave start frameLen padded := by
  have hoffn : offset ≤ n := by omega
  have hlenbufN : ((wave.take n).drop offset).length = n - offset := by
    simp only [List.length_drop, List.length_take]
    omega
  have hlenZ : (((wave.take n).drop offset).length : ℤ) = (n : ℤ) - (offset : ℤ) := by
    omega
  unfold copySamples
  apply List.map_congr_left
  intro s hs
  by_cases hsf : s < frameLen
  · simp only [hsf, if_true]
    have hidxL : (0 : ℤ) ≤ (s : ℤ) + (start - (offset : ℤ)) := by omega
    have hidxL2 : (s : ℤ) + (start - (offset : ℤ)) <
        (((wave.take n).drop offset).length : ℤ) := by
      rw [hlenZ]
      omega
    have hnwZ : (n : ℤ) ≤ (wave.length : ℤ) := by omega
    have hidxR : (0 : ℤ) ≤ (s : ℤ) + (start - ((0 : ℕ) : ℤ)) := by
      push_cast
      omega
    have hidxR2 : (s : ℤ) + (start - ((0 : ℕ) : ℤ)) < (wave.length : ℤ) := by
      push_cast
      omega
    rw [reflectIdx_of_inRange _ _ hidxL hidxL2, reflectIdx_of_inRange _ _ hidxR hidxR2]
    rw [if_pos ⟨hidxL, hidxL2⟩, if_pos ⟨hidxR, hidxR2⟩]
    rw [List.getD_eq_getElem?_getD, List.getD_eq_getElem?_getD]
    rw [List.getElem?_drop]
    have hlt : offset + ((s : ℤ) + (start - (offset : ℤ))).toNat < n := by omega
    rw [List.getElem?_take_of_lt hlt]
    have hidx : offset + ((s : ℤ) + (start - (offset : ℤ))).toNat =
        ((s : ℤ) + (start - ((0 : ℕ) : ℤ))).toNat := by
      push_cast
      omega
    rw [hidx]
  · simp [hsf]

/-- In the snip regime, a frame whose samples all lie inside `[offset, n)`
extracts identically from the retained buffer `(wave.take n).drop offset`
(at that offset) and from the whole waveform at offset 0 — and the
extraction succeeds. -/
lemma extract_snip_agree (o : FrameOptions) (hsnip : o.snip_edges = true)
    (rng : ℕ → ℝ) (win : Option (List ℝ)) (wave : List ℝ) (n offset f : ℕ)
    (hn : n ≤ wave.length) (hoff : offset ≤ f * window_shift o)
    (hend : f * window_shift o + window_size o ≤ n) :
    extract_window rng offset ((wave.take n).drop offset) f o win =
      extract_window rng 0 wave f o win ∧
      ∃ p, extract_window rng 0 wave f o win = some p := by
  have hfs := first_sample_snip o hsnip f
  have hlenbufN : ((wave.take n).drop offset).length = n - offset := by
    simp only [List.length_drop, List.length_take]
    omega
  have hcopy : copySamples offset ((wave.take n).drop offset)
      (first_sample_of_frame f o) (window_size o) (padded_window_size o) =
      copySamples 0 wave (first_sample_of_frame f o) (window_size o)
        (padded_window_size o) := by
    apply copySamples_agree wave n offset _ _ _ hn
    · rw [hfs]
      exact_mod_cast hoff
    · rw [hfs]
      push_cast
      omega
  have hpre : extractPre rng offset ((wave.take n).drop offset) f o =
      extractPre rng 0 wave f o := by
    rw [extractPre, extractPre, hcopy]
  have hsig : extractSignal rng offset ((wave.take n).drop offset) f o =
      extractSignal rng 0 wave f o := by
    rw [extractSignal, extractSignal, hpre]
  have hbuf : extractBuf rng offset ((wave.take n).drop offset) f o win =
      extractBuf rng 0 wave f o win := by
    cases win <;> simp [extractBuf, hsig]
  have hen : extractEnergy rng offset ((wave.take n).drop offset) f o =
      extractEnergy rng 0 wave f o := by
    rw [extractEnergy, extractEnergy, hsig]
  have hgL : ¬ (o.snip_edges = true ∧
      (first_sample_of_frame f o < (offset : ℤ) ∨
        ((offset + ((wave.take n).drop offset).length : ℕ) : ℤ) <
          first_sample_of_frame f o + (window_size o : ℤ))) := by
    rw [hfs, hlenbufN]
    rintro ⟨-, h | h⟩
    · push_cast at h
      omega
    · push_cast at h
      omega
  have hgR : ¬ (o.snip_edges = true ∧
      (first_sample_of_frame f o < ((0 : ℕ) : ℤ) ∨
        (((0 : ℕ) + wave.length : ℕ) : ℤ) <
          first_sample_of_frame f o + (window_size o : ℤ))) := by
    rw [hfs]
    rintro ⟨-, h | h⟩
    · push_cast at h
      omega
    · push_cast at h
      omega
  constructor
  · rw [extract_window, extract_window, if_neg hgL, if_neg hgR,
      if_neg (by simp [hsnip]), if_neg (by simp [hsnip]), hbuf, hen]
  · rw [extract_window, if_neg hgR, if_neg (by simp [hsnip])]
    exact ⟨_, rfl⟩

/-- The streaming invariant (snip regime): after consuming the first `n`
samples of `wave`, the accumulator holds exactly the suffix of the consumed
prefix from `waveform_offset` on, its features are precisely the offline
features of the ready frames, and no retained sample needed by a future
frame has been discarded. -/
def SnipInv (cf : List ℝ → ℝ → List ℝ) (o : FrameOptions) (rng : ℕ → ℝ)
    (wave : List ℝ) (n : ℕ) (s : OnlineState) : Prop :=
  n ≤ wave.length ∧
    s.input_finished = false ∧
    s.window_function = windowNew o ∧
    s.waveform_offset + s.waveform.length = n ∧
    s.waveform = (wave.take n).drop s.waveform_offset ∧
    s.features = (List.range (num_frames n o false)).map
      (batchFeature cf o rng (windowNew o) wave) ∧
    s.waveform_offset ≤ num_frames n o false * window_shift o

lemma range_map_append (g : ℕ → List ℝ) (k k' : ℕ) (h : k ≤ k') :
    (List.range k).map g ++ (List.range' k (k' - k)).map g =
      (List.range k').map g := by
  rw [← List.map_append]
  congr 1
  rw [List.range_eq_range', List.range_eq_range']
  have hr := List.range'_append 0 k (k' - k) 1
  simp only [Nat.one_mul, Nat.zero_add] at hr
  rw [hr]
  congr 1
  omega

/-- `compute_new` preserves the streaming invariant (snip regime): from any
state whose buffer corresponds to `n'` consumed samples and whose features
are the offline features of some `k ≤ num_frames n'` frames, it succeeds
and restores the full invariant at `n'`. -/
lemma computeNew_snip_inv (cf : List ℝ → ℝ → List ℝ) (o : FrameOptions)
    (rng : ℕ → ℝ) (wave : List ℝ) (hsnip : o.snip_edges = true)
    (hshift : 0 < window_shift o) (n' k : ℕ) (s : OnlineState)
    (hn' : n' ≤ wave.length)
    (hfin : s.input_finished = false)
    (hwin : s.window_function = windowNew o)
    (hsum : s.waveform_offset + s.waveform.length = n')
    (hbuf : s.waveform = (wave.take n').drop s.waveform_offset)
    (hfeat : s.features = (List.range k).map (batchFeature cf o rng (windowNew o) wave))
    (hkle : k ≤ num_frames n' o false)
    (hoffk : s.waveform_offset ≤ k * window_shift o) :
    ∃ s', computeNew cf o rng s = some s' ∧ SnipInv cf o rng wave n' s' := by
  have hflen : s.features.length = k := by rw [hfeat]; simp
  have hready : readyFrames o s = num_frames n' o false := by
    rw [readyFrames, hsum, hfin]
  set k' := num_frames n' o false with hk'
  by_cases hcase : k' ≤ k
  · have hkk : k = k' := le_antisymm hkle hcase
    refine ⟨s, computeNew_noop cf o rng s (by rw [hready, hflen]; omega), ?_⟩
    exact ⟨hn', hfin, hwin, hsum, hbuf, by rw [hfeat, hkk],
      by rw [← hk', ← hkk]; exact hoffk⟩
  · push_neg at hcase
    have hmap : optionMapList (fun f =>
        (extract_window rng s.waveform_offset s.waveform f o s.window_function).map
          fun p => cf p.1 p.2) (List.range' s.features.length (k' - s.features.length)) =
        some ((List.range' k (k' - k)).map (batchFeature cf o rng (windowNew o) wave)) := by
      rw [hflen]
      apply optionMapList_eq_some_of_forall
      intro f hf
      have hfk : k ≤ f ∧ f < k' := by
        rw [List.mem_range'] at hf
        omega
      have hoff : s.waveform_offset ≤ f * window_shift o :=
        le_trans hoffk (Nat.mul_le_mul_right _ hfk.1)
      have hend : f * window_shift o + window_size o ≤ n' :=
        num_frames_snip_frame_fits o hsnip hshift (hk' ▸ hfk.2)
      obtain ⟨hagree, p, hp⟩ :=
        extract_snip_agree o hsnip rng (windowNew o) wave n' s.waveform_offset f
          hn' hoff hend
      rw [hwin, hbuf, hagree, hp, batchFeature, hp]
      simp
    have heval := computeNew_eval cf o rng s k'
      ((List.range' k (k' - k)).map (batchFeature cf o rng (windowNew o) wave))
      (gcDiscard o s) hready (by omega) hmap rfl
    have hgcval : gcDiscard o s = (k' * window_shift o : ℤ) - (s.waveform_offset : ℤ) := by
      rw [gcDiscard, hready, first_sample_snip o hsnip]
      push_cast
      ring
    have hfeat' : s.features ++ (List.range' k (k' - k)).map
        (batchFeature cf o rng (windowNew o) wave) =
        (List.range k').map (batchFeature cf o rng (windowNew o) wave) := by
      rw [hfeat, range_map_append _ _ _ (le_of_lt hcase)]
    rw [heval]
    split
    · rename_i hcond
      refine ⟨_, rfl, ?_⟩
      have hdpos : 0 < gcDiscard o s := hcond.1
      have hdle : gcDiscard o s ≤ (s.waveform.length : ℤ) := hcond.2
      have htoN : s.waveform_offset + (gcDiscard o s).toNat = k' * window_shift o := by
        rw [hgcval] at hdpos ⊢
        omega
      refine ⟨hn', hfin, hwin, ?_, ?_, ?_, ?_⟩
      · simp only [List.length_drop]
        rw [hgcval] at hdle hdpos
        omega
      · simp only []
        rw [hbuf, List.drop_drop]
      · simp only []
        rw [hfeat']
      · simp only []
        rw [← hk']
        omega
    · refine ⟨_, rfl, ?_⟩
      refine ⟨hn', hfin, hwin, hsum, hbuf, ?_, ?_⟩
      · simp only []
        rw [hfeat']
      · simp only []
        calc s.waveform_offset ≤ k * window_shift o := hoffk
          _ ≤ k' * window_shift o := Nat.mul_le_mul_right _ (le_of_lt hcase)

lemma take_drop_slice (wave : List ℝ) (offset n c : ℕ) (hoff : offset ≤ n)
    (hn : n + c ≤ wave.length) :
    (wave.take (n + c)).drop offset =
      (wave.take n).drop offset ++ (wave.drop n).take c := by
  rw [List.take_add, List.drop_append_eq_append_drop]
  congr 1
  have hz : offset - (wave.take n).length = 0 := by
    rw [List.length_take]
    omega
  rw [hz, List.drop_zero]

/-- One `accept_waveform` call on the next slice of the waveform preserves
the streaming invariant (snip regime). -/
lemma acceptWaveform_snip_inv (cf : List ℝ → ℝ → List ℝ) (o : FrameOptions)
    (rng : ℕ → ℝ) (rate : ℚ) (wave : List ℝ) (hsnip : o.snip_edges = true)
    (hshift : 0 < window_shift o) (hrate : |rate - o.samp_freq| ≤ 1)
    (n : ℕ) (s : OnlineState) (chunk : List ℝ)
    (hinv : SnipInv cf o rng wave n s)
    (hchunk : chunk = (wave.drop n).take chunk.length)
    (hn' : n + chunk.length ≤ wave.length) :
    ∃ s', acceptWaveform cf o rng rate chunk s = some s' ∧
      SnipInv cf o rng wave (n + chunk.length) s' := by
  obtain ⟨hn, hfin, hwin, hsum, hbuf, hfeat, hoffk⟩ := hinv
  rw [acceptWaveform, if_neg (not_lt.mpr hrate)]
  have hoffn : s.waveform_offset ≤ n := by omega
  refine computeNew_snip_inv cf o rng wave hsnip hshift (n + chunk.length)
    (num_frames n o false) { s with waveform := s.waveform ++ chunk }
    hn' hfin hwin ?_ ?_ hfeat (num_frames_snip_mono o hsnip (by omega)) hoffk
  · simp only [List.length_append]
    omega
  · show s.waveform ++ chunk = (wave.take (n + chunk.length)).drop s.waveform_offset
    rw [take_drop_slice wave s.waveform_offset n chunk.length hoffn hn', hbuf]
    congr 1

/-- Folding `accept_waveform` over the remaining slices drives the
invariant to the end of the waveform. -/
lemma foldl_accept_snip (cf : List ℝ → ℝ → List ℝ) (o : FrameOptions)
    (rng : ℕ → ℝ) (rate : ℚ) (wave : List ℝ) (hsnip : o.snip_edges = true)
    (hshift : 0 < window_shift o) (hrate : |rate - o.samp_freq| ≤ 1) :
    ∀ (rest : List (List ℝ)) (n : ℕ) (s : OnlineState),
      SnipInv cf o rng wave n s → wave.drop n = rest.flatten →
      ∃ s', List.foldlM (fun s c => acceptWaveform cf o rng rate c s) s rest = some s' ∧
        SnipInv cf o rng wave wave.length s' := by
  intro rest
  induction rest with
  | nil =>
      intro n s hinv hjoin
      have hlen := congrArg List.length hjoin
      simp only [List.length_drop, List.flatten_nil, List.length_nil] at hlen
      have hnw : n = wave.length := by
        have := hinv.1
        omega
      subst hnw
      exact ⟨s, by simp [List.foldlM_nil], hinv⟩
  | cons c rest ih =>
      intro n s hinv hjoin
      have hjlen := congrArg List.length hjoin
      simp only [List.length_drop, List.flatten_cons, List.length_append] at hjlen
      have hn' : n + c.length ≤ wave.length := by
        have := hinv.1
        omega
      have hchunk : c = (wave.drop n).take c.length := by
        rw [hjoin, List.flatten_cons]
        rw [List.take_left]
      obtain ⟨s', hacc, hinv'⟩ :=
        acceptWaveform_snip_inv cf o rng rate wave hsnip hshift hrate n s c
          hinv hchunk hn'
      have hjoin' : wave.drop (n + c.length) = rest.flatten := by
        rw [← List.drop_drop]
        rw [hjoin, List.flatten_cons]
        rw [List.drop_left]
      obtain ⟨s'', hfold, hinv''⟩ := ih (n + c.length) s' hinv' hjoin'
      refine ⟨s'', ?_, hinv''⟩
      rw [List.foldlM_cons]
      simp only [hacc, Option.bind_eq_bind]
      simpa using hfold

lemma num_frames_zero (o : FrameOptions) (hsnip : o.snip_edges = true)
    (hsize : 0 < window_size o) : num_frames 0 o false = 0 := by
  simp [num_frames, hsnip, hsize]

/-- A full snip-regime session over any chunking produces exactly the
offline features of the whole joined waveform. -/
lemma runChunks_snip_features (cf : List ℝ → ℝ → List ℝ) (o : FrameOptions)
    (rng : ℕ → ℝ) (rate : ℚ) (chunks : List (List ℝ))
    (hsnip : o.snip_edges = true) (hsize : 0 < window_size o)
    (hshift : 0 < window_shift o) (hrate : |rate - o.samp_freq| ≤ 1) :
    (runChunks cf o rng rate chunks).map OnlineState.features =
      some ((List.range (num_frames chunks.flatten.length o false)).map
        (batchFeature cf o rng (windowNew o) chunks.flatten)) := by
  have hinv0 : SnipInv cf o rng chunks.flatten 0 (onlineNew o) := by
    refine ⟨Nat.zero_le _, rfl, rfl, rfl, by simp [onlineNew], ?_, Nat.zero_le _⟩
    rw [num_frames_zero o hsnip hsize]
    rfl
  obtain ⟨sN, hfold, hinvN⟩ := foldl_accept_snip cf o rng rate chunks.flatten
    hsnip hshift hrate chunks 0 (onlineNew o) hinv0 (by simp)
  obtain ⟨-, hfinN, hwinN, hsumN, hbufN, hfeatN, hoffN⟩ := hinvN
  have hready' : readyFrames o { sN with input_finished := true } =
      num_frames chunks.flatten.length o false := by
    rw [readyFrames]
    show num_frames (sN.waveform_offset + sN.waveform.length) o true = _
    rw [hsumN, num_frames_snip_flush o hsnip _ true false]
  have hfinish : inputFinished cf o rng sN =
      some { sN with input_finished := true } := by
    rw [inputFinished]
    apply computeNew_noop
    rw [hready']
    show _ ≤ sN.features.length
    rw [hfeatN]
    simp
  rw [runChunks, hfold]
  show (inputFinished cf o rng sN).map OnlineState.features = _
  rw [hfinish]
  show some sN.features = _
  rw [hfeatN]

/-- C1 (amended): in the snip-edges regime (positive frame size and shift,
dithering disabled, matching sample rate), the features stored after
feeding the waveform in arbitrary chunks followed by `finish()` are
exactly the features of a single `accept_waveform` of the entire waveform
followed by `finish()` — for every per-frame feature computer `cf`. -/
theorem snip_streaming_batch_equiv (cf : List ℝ → ℝ → List ℝ) (o : FrameOptions)
    (rng : ℕ → ℝ) (rate : ℚ) (chunks : List (List ℝ))
    (hsnip : o.snip_edges = true) (hdither : o.dither = 0)
    (hsize : 0 < window_size o) (hshift : 0 < window_shift o)
    (hrate : |rate - o.samp_freq| ≤ 1) :
    (runChunks cf o rng rate chunks).map OnlineState.features =
      (runChunks cf o rng rate [chunks.flatten]).map OnlineState.features := by
  rw [runChunks_snip_features cf o rng rate chunks hsnip hsize hshift hrate,
    runChunks_snip_features cf o rng rate [chunks.flatten] hsnip hsize hshift hrate]
  simp

/-- C1 witness (for the amended theorem): a concrete snip configuration,
waveform and chunking. -/
theorem snip_streaming_batch_equiv_witness :
    (cfgPre.snip_edges = true ∧ cfgPre.dither = 0 ∧ 0 < window_size cfgPre ∧
        0 < window_shift cfgPre ∧ |(1000 : ℚ) - cfgPre.samp_freq| ≤ 1) ∧
      (runChunks (fun _ e => [e]) cfgPre rng0 1000
          [[(1 : ℝ)], [2, 3]]).map OnlineState.features =
        (runChunks (fun _ e => [e]) cfgPre rng0 1000
          [([[(1 : ℝ)], [2, 3]] : List (List ℝ)).flatten]).map OnlineState.features :=
  ⟨⟨rfl, rfl, by rw [cfgPre_ws]; norm_num, by rw [cfgPre_shift]; norm_num,
      by norm_num [cfgPre]⟩,
    snip_streaming_batch_equiv (fun _ e => [e]) cfgPre rng0 1000 [[(1 : ℝ)], [2, 3]]
      rfl rfl (by rw [cfgPre_ws]; norm_num) (by rw [cfgPre_shift]; norm_num)
      (by norm_num [cfgPre])⟩

end KnfSpec
